import Mathlib

/-!
JuceLeapFw: the DAQMX PWM output device

A shallow embedding of `Source/DAQMX.cpp`, `Source/DAQMXclass.h` and of the
part of `Source/OpenGLDemo.cpp` that owns the device, followed by theorems
about the waveform encoder (`createPWM`) and the device life cycle
(constructor, `writePWM`, destructor).

Conventions
* a `uInt8` cell is a natural number, every store reduced `% 256`;
* `int32` status codes are integers; `DAQmxFailed` is the NI-DAQmx header
  macro `((error) < 0)`;
* the NI-DAQmx driver is an external party: every call the code makes is
  appended to a log together with the status the driver returned, and the
  driver itself is an arbitrary function of the history and the call.
-/

namespace JuceLeapFw

/-! ## Constants of `DAQMXclass.h` -/

/-- The constant `#define Nsamp 256`. -/
abbrev Nsamp : Nat := 256

/-- The constant `#define Fclk Nsamp*30000`. -/
abbrev Fclk : Nat := Nsamp * 30000

/-- The argument `uInt8 dc[8]`: eight bytes, one per channel. -/
abbrev DutyCycle : Type := Fin 8 → Fin 256

/-- The member `uInt8 DAQdata[Nsamp]`. -/
abbrev Buffer : Type := Fin Nsamp → Nat

/-- The member fields of `class DAQMX`. -/
structure DAQMX where
  taskHandle : Nat
  DAQdata : Buffer
  connected : Bool
  error : Int

/-! ## `DAQMX::createPWM` -/

/-- One pass of the inner loop body for channel `j` at sample `i`:
`DAQdata[i] <<= 1; DAQdata[i] += (i < dc[j]) ? 1 : 0;`. -/
def createPWM.step (dc : DutyCycle) (i : Fin Nsamp) (d : Buffer) (j : Fin 8) : Buffer :=
  let d1 := Function.update d i ((d i <<< 1) % 256)
  Function.update d1 i ((d1 i + (if i.val < (dc j).val then 1 else 0)) % 256)

/-- The body of the outer loop at sample `i`:
`DAQdata[i] = 0; for (int j = 7; j >= 0; j--) { ... }`. -/
def createPWM.body (dc : DutyCycle) (d : Buffer) (i : Fin Nsamp) : Buffer :=
  ([7, 6, 5, 4, 3, 2, 1, 0] : List (Fin 8)).foldl (createPWM.step dc i) (Function.update d i 0)

/-- The loop `for (int i = 0; i < Nsamp; i++)` over the whole buffer. -/
def createPWM.fill (dc : DutyCycle) (d : Buffer) : Buffer :=
  (List.finRange Nsamp).foldl (createPWM.body dc) d

/-- The `Nsamp` bytes a driver write reads through the pointer `DAQdata`. -/
def readBuffer (d : Buffer) : List Nat := List.ofFn d

/-- The method `void DAQMX::createPWM(uInt8 dc[8])`: it rewrites `DAQdata`
and touches no other member. -/
def DAQMX.createPWM (s : DAQMX) (dc : DutyCycle) : DAQMX :=
  { s with DAQdata := createPWM.fill dc s.DAQdata }

/-- Bit `j` of a sample. -/
def bit (x : Nat) (j : Fin 8) : Bool := x.testBit j.val

/-- The duty-cycle vector with the same value on all eight channels. -/
def constDC (v : Fin 256) : DutyCycle := fun _ => v

/-- The duty-cycle vector given by eight bytes in channel order. -/
def mkDC (a0 a1 a2 a3 a4 a5 a6 a7 : Fin 256) : DutyCycle :=
  fun j => [a0, a1, a2, a3, a4, a5, a6, a7].getD j.val 0

/-! ## `DAQMX::createPWM` with checked array accesses -/

/-- What can stop a checked run of `createPWM`: an index outside
`uInt8 DAQdata[Nsamp]`, an index outside `uInt8 dc[8]`, or a loop that is
still running when the step budget is used up. -/
inductive Fault where
  | bufferIndex (i : Int)
  | dcIndex (j : Int)
  | outOfFuel
  deriving DecidableEq

/-- The cell `DAQdata[i]` for an `int i`, when `i` is inside the array. -/
def checkBuffer (i : Int) : Except Fault (Fin Nsamp) :=
  if h : 0 ≤ i ∧ i.toNat < Nsamp then .ok ⟨i.toNat, h.2⟩ else .error (.bufferIndex i)

/-- The cell `dc[j]` for an `int j`, when `j` is inside the array. -/
def checkDC (j : Int) : Except Fault (Fin 8) :=
  if h : 0 ≤ j ∧ j.toNat < 8 then .ok ⟨j.toNat, h.2⟩ else .error (.dcIndex j)

/-- The loop `for (int j = 7; j >= 0; j--) { DAQdata[i] <<= 1; DAQdata[i] += ...; }`
from counter value `j` on, one unit of fuel for each evaluation of `j >= 0`. -/
def createPWM.innerChecked (dc : DutyCycle) (i : Int) : Nat → Int → Buffer → Except Fault Buffer
  | 0, _, _ => .error .outOfFuel
  | fuel + 1, j, d =>
    if 0 ≤ j then
      match checkBuffer i, checkDC j with
      | .ok bi, .ok cj => createPWM.innerChecked dc i fuel (j - 1) (createPWM.step dc bi d cj)
      | .error f, _ => .error f
      | .ok _, .error f => .error f
    else .ok d

/-- The loop `for (int i = 0; i < Nsamp; i++) { DAQdata[i] = 0; ... }` from
counter value `i` on, one unit of fuel for each evaluation of `i < Nsamp`;
`seen` collects the sample indices whose iteration has run. -/
def createPWM.outerChecked (dc : DutyCycle) (innerFuel : Nat) :
    Nat → Int → Buffer → List Int → Except Fault (Buffer × List Int)
  | 0, _, _, _ => .error .outOfFuel
  | fuel + 1, i, d, seen =>
    if i < (Nsamp : Int) then
      match checkBuffer i with
      | .error f => .error f
      | .ok bi =>
        match createPWM.innerChecked dc i innerFuel 7 (Function.update d bi 0) with
        | .error f => .error f
        | .ok d1 => createPWM.outerChecked dc innerFuel fuel (i + 1) d1 (seen ++ [i])
    else .ok (d, seen)

/-- The body of `createPWM` run with checked accesses and step budgets for the
two loops: the final buffer and the sample indices visited, or the fault. -/
def createPWM.checked (dc : DutyCycle) (outerFuel innerFuel : Nat) (d : Buffer) :
    Except Fault (Buffer × List Int) :=
  createPWM.outerChecked dc innerFuel outerFuel 0 d []

/-! ## The NI-DAQmx driver as seen from the code -/

/-- The macro `DAQmxFailed(error)` of `NIDAQmx.h`: `((error) < 0)`. -/
def DAQmxFailed (error : Int) : Bool := decide (error < 0)

/-- The driver entry points the repository calls, with the arguments it
chooses (the fixed arguments `""`, `DAQmx_Val_ChanForAllLines`,
`DAQmx_Val_Rising`, `DAQmx_Val_ContSamps`, `DAQmx_Val_GroupByChannel` and
`NULL` are left out). -/
inductive DriverCall where
  /-- The call `DAQmxCreateTask("", &taskHandle)`. -/
  | createTask
  /-- The call `DAQmxCreateDOChan(taskHandle, lines, "", DAQmx_Val_ChanForAllLines)`. -/
  | createDOChan (task : Nat) (lines : String)
  /-- The call `DAQmxCfgSampClkTiming(taskHandle, "", rate, Rising, ContSamps, sampsPerChan)`. -/
  | cfgSampClkTiming (task : Nat) (rate : Nat) (sampsPerChan : Nat)
  /-- The call `DAQmxWriteDigitalU8(taskHandle, numSamps, autoStart, timeout, GroupByChannel, data, NULL, NULL)`,
  the time-out in seconds (`-1` is `DAQmx_Val_WaitInfinitely`). -/
  | writeDigitalU8 (task : Nat) (numSamps : Nat) (autoStart : Bool) (timeout : Int)
      (data : List Nat)
  /-- The call `DAQmxStartTask(taskHandle)`. -/
  | startTask (task : Nat)
  /-- The call `DAQmxStopTask(taskHandle)`. -/
  | stopTask (task : Nat)
  /-- The call `DAQmxClearTask(taskHandle)`. -/
  | clearTask (task : Nat)
  /-- The call `DAQmxGetExtendedErrorInfo(errBuff, bufferSize)`. -/
  | getExtendedErrorInfo (bufferSize : Nat)
  deriving DecidableEq

/-- What the outside world observes: a driver call with the status it
returned, or the line `printf("DAQmx Error: %s\n", errBuff)`. -/
inductive Event where
  | call (c : DriverCall) (status : Int)
  | printf
  deriving DecidableEq

/-- The driver: the status of a call and the handle `DAQmxCreateTask` leaves
in `taskHandle`, both depending on everything that happened before. -/
structure Driver where
  status : List Event → DriverCall → Int
  newTask : List Event → Nat

/-- A call that acts on the task (everything but the error-text query). -/
def DriverCall.isTaskCall : DriverCall → Bool
  | .getExtendedErrorInfo _ => false
  | _ => true

/-- The task calls of a log with their statuses, in order; the error report
(`DAQmxGetExtendedErrorInfo` and `printf`) is dropped. -/
def taskEvents : List Event → List (DriverCall × Int)
  | [] => []
  | Event.call c st :: l => if c.isTaskCall then (c, st) :: taskEvents l else taskEvents l
  | Event.printf :: l => taskEvents l

/-- The task calls of a log, in order. -/
def taskCalls (log : List Event) : List DriverCall := (taskEvents log).map Prod.fst

/-- The error report of the label `Error:`. -/
def errorReport (drv : Driver) (log : List Event) : List Event :=
  [Event.call (.getExtendedErrorInfo 2048) (drv.status log (.getExtendedErrorInfo 2048)),
   Event.printf]

/-! ## `class DAQMX` -/

/-- The code after the label `Error:` in the constructor and in `writePWM`:
`if (DAQmxFailed(error)) { DAQmxGetExtendedErrorInfo(errBuff,2048); printf(...); }`. -/
def DAQMX.atError (drv : Driver) (s : DAQMX) (log : List Event) : DAQMX × List Event :=
  if DAQmxFailed s.error then (s, log ++ errorReport drv log) else (s, log)

/-- The local `uInt8 dc[8] = {Nsamp/2, ..., Nsamp/2}` of the constructor. -/
def ctorDC : DutyCycle := fun _ => Fin.ofNat (Nsamp / 2)

/-- The constructor `DAQMX::DAQMX(char *portName)`, run on an object whose
members hold whatever `mem` holds. Each `DAQmxErrChk (f)` stores the status
of `f` in `error` and jumps to `Error:` when it is a failure. -/
def DAQMX.ctor (drv : Driver) (portName : String) (mem : DAQMX) (log : List Event) :
    DAQMX × List Event :=
  let dc : DutyCycle := ctorDC
  let s0 : DAQMX := { mem with connected := false, error := 0, taskHandle := 0 }
  let c1 := DriverCall.createTask
  let r1 := drv.status log c1
  let s1 : DAQMX := { s0 with taskHandle := drv.newTask log, error := r1 }
  let log1 := log ++ [Event.call c1 r1]
  if DAQmxFailed r1 then DAQMX.atError drv s1 log1 else
  let c2 := DriverCall.createDOChan s1.taskHandle portName
  let r2 := drv.status log1 c2
  let s2 : DAQMX := { s1 with error := r2 }
  let log2 := log1 ++ [Event.call c2 r2]
  if DAQmxFailed r2 then DAQMX.atError drv s2 log2 else
  let c3 := DriverCall.cfgSampClkTiming s2.taskHandle Fclk Nsamp
  let r3 := drv.status log2 c3
  let s3 : DAQMX := { s2 with error := r3 }
  let log3 := log2 ++ [Event.call c3 r3]
  if DAQmxFailed r3 then DAQMX.atError drv s3 log3 else
  let s4 := s3.createPWM dc
  let c4 := DriverCall.writeDigitalU8 s4.taskHandle Nsamp false 10 (readBuffer s4.DAQdata)
  let r4 := drv.status log3 c4
  let s5 : DAQMX := { s4 with error := r4 }
  let log4 := log3 ++ [Event.call c4 r4]
  if DAQmxFailed r4 then DAQMX.atError drv s5 log4 else
  let c5 := DriverCall.startTask s5.taskHandle
  let r5 := drv.status log4 c5
  let s6 : DAQMX := { s5 with error := r5 }
  let log5 := log4 ++ [Event.call c5 r5]
  if DAQmxFailed r5 then DAQMX.atError drv s6 log5 else
  DAQMX.atError drv { s6 with connected := true } log5

/-- The destructor `DAQMX::~DAQMX()`; the two statuses are not looked at. -/
def DAQMX.dtor (drv : Driver) (s : DAQMX) (log : List Event) : DAQMX × List Event :=
  if s.connected then
    let s1 : DAQMX := { s with connected := false }
    let c1 := DriverCall.stopTask s1.taskHandle
    let log1 := log ++ [Event.call c1 (drv.status log c1)]
    let c2 := DriverCall.clearTask s1.taskHandle
    (s1, log1 ++ [Event.call c2 (drv.status log1 c2)])
  else (s, log)

/-- The method `bool DAQMX::IsConnected()`. -/
def DAQMX.IsConnected (s : DAQMX) : Bool := s.connected

/-- The method `void DAQMX::writePWM(uInt8 dc[8])`. -/
def DAQMX.writePWM (drv : Driver) (s : DAQMX) (dc : DutyCycle) (log : List Event) :
    DAQMX × List Event :=
  let s1 : DAQMX := { s with error := 0 }
  let s2 := s1.createPWM dc
  let c := DriverCall.writeDigitalU8 s2.taskHandle Nsamp false 10 (readBuffer s2.DAQdata)
  let r := drv.status log c
  let s3 : DAQMX := { s2 with error := r }
  DAQMX.atError drv s3 (log ++ [Event.call c r])

/-- What a caller of `writePWM` holds afterwards: the `void` return value and
the answer of the only public query of `class DAQMX`, `IsConnected()` (the
members `error`, `DAQdata` and `taskHandle` are private). -/
def callerView (r : DAQMX × List Event) : Unit × Bool := ((), r.1.IsConnected)

/-! ## The owner in `OpenGLDemo.cpp` -/

/-- The device part of `OpenGLDemo::~OpenGLDemo()`:
`unsigned char tmp[8] = {0,0,0,0,0,0,0,0}; SP->writePWM(tmp); delete SP;`. -/
def OpenGLDemo.dtor (drv : Driver) (SP : DAQMX) (log : List Event) : DAQMX × List Event :=
  let tmp : DutyCycle := fun _ => 0
  let r := DAQMX.writePWM drv SP tmp log
  DAQMX.dtor drv r.1 r.2

/-- The five task calls of the constructor in program order, for task
handle `task`, port `portName` and initial buffer contents `data`. -/
def ctorCalls (task : Nat) (portName : String) (data : List Nat) : List DriverCall :=
  [.createTask, .createDOChan task portName, .cfgSampClkTiming task Fclk Nsamp,
   .writeDigitalU8 task Nsamp false 10 data, .startTask task]

/-- The log after the constructor's first call, `DAQmxCreateTask`. -/
def ctorLog1 (drv : Driver) (log : List Event) : List Event :=
  log ++ [Event.call .createTask (drv.status log .createTask)]

/-- The log after the constructor's second call, `DAQmxCreateDOChan`. -/
def ctorLog2 (drv : Driver) (portName : String) (log : List Event) : List Event :=
  ctorLog1 drv log ++ [Event.call (.createDOChan (drv.newTask log) portName)
    (drv.status (ctorLog1 drv log) (.createDOChan (drv.newTask log) portName))]

/-- The log after the constructor's third call, `DAQmxCfgSampClkTiming`. -/
def ctorLog3 (drv : Driver) (portName : String) (log : List Event) : List Event :=
  ctorLog2 drv portName log ++ [Event.call (.cfgSampClkTiming (drv.newTask log) Fclk Nsamp)
    (drv.status (ctorLog2 drv portName log) (.cfgSampClkTiming (drv.newTask log) Fclk Nsamp))]

/-- The constructor's fourth call: the write of the initial buffer, built by
`createPWM(dc)` in the object whose memory was `mem`. -/
def ctorWrite (drv : Driver) (mem : DAQMX) (log : List Event) : DriverCall :=
  .writeDigitalU8 (drv.newTask log) Nsamp false 10 (readBuffer (mem.createPWM ctorDC).DAQdata)

/-- The log after the constructor's fourth call, `DAQmxWriteDigitalU8`. -/
def ctorLog4 (drv : Driver) (portName : String) (mem : DAQMX) (log : List Event) : List Event :=
  ctorLog3 drv portName log ++ [Event.call (ctorWrite drv mem log)
    (drv.status (ctorLog3 drv portName log) (ctorWrite drv mem log))]

/-- The log after the constructor's fifth call, `DAQmxStartTask`. -/
def ctorLog5 (drv : Driver) (portName : String) (mem : DAQMX) (log : List Event) : List Event :=
  ctorLog4 drv portName mem log ++ [Event.call (.startTask (drv.newTask log))
    (drv.status (ctorLog4 drv portName mem log) (.startTask (drv.newTask log)))]

/-- The status the driver returns to the constructor's `DAQmxCreateTask`. -/
def ctorStatus1 (drv : Driver) (log : List Event) : Int := drv.status log .createTask

/-- The status the driver returns to the constructor's `DAQmxCreateDOChan`. -/
def ctorStatus2 (drv : Driver) (portName : String) (log : List Event) : Int :=
  drv.status (ctorLog1 drv log) (.createDOChan (drv.newTask log) portName)

/-- The status the driver returns to the constructor's `DAQmxCfgSampClkTiming`. -/
def ctorStatus3 (drv : Driver) (portName : String) (log : List Event) : Int :=
  drv.status (ctorLog2 drv portName log) (.cfgSampClkTiming (drv.newTask log) Fclk Nsamp)

/-- The status the driver returns to the constructor's `DAQmxWriteDigitalU8`. -/
def ctorStatus4 (drv : Driver) (portName : String) (mem : DAQMX) (log : List Event) : Int :=
  drv.status (ctorLog3 drv portName log) (ctorWrite drv mem log)

/-- The status the driver returns to the constructor's `DAQmxStartTask`. -/
def ctorStatus5 (drv : Driver) (portName : String) (mem : DAQMX) (log : List Event) : Int :=
  drv.status (ctorLog4 drv portName mem log) (.startTask (drv.newTask log))

/-- The five task calls of the constructor, each with the status the driver
returns to it when all the calls before it were made. -/
def ctorEvents (drv : Driver) (portName : String) (mem : DAQMX) (log : List Event) :
    List Event :=
  [Event.call .createTask (ctorStatus1 drv log),
   Event.call (.createDOChan (drv.newTask log) portName) (ctorStatus2 drv portName log),
   Event.call (.cfgSampClkTiming (drv.newTask log) Fclk Nsamp) (ctorStatus3 drv portName log),
   Event.call (ctorWrite drv mem log) (ctorStatus4 drv portName mem log),
   Event.call (.startTask (drv.newTask log)) (ctorStatus5 drv portName mem log)]

/-- All the driver calls of a log, in order, the error-text query
`DAQmxGetExtendedErrorInfo` included. -/
def driverCalls : List Event → List DriverCall
  | [] => []
  | Event.call c _ :: l => c :: driverCalls l
  | Event.printf :: l => driverCalls l

/-- The bound of the header comment on `Fclk`: `must be less than 10Mhz, which
is max clock supported by PCIe-6535`, in samples per second. -/
def maxClock : Nat := 10000000

/-! ## Concrete drivers and objects -/

/-- The port the shell opens: `SP = new DAQMX("Dev1/port3/line0:7")`. -/
def shellPort : String := "Dev1/port3/line0:7"


/-- A driver on which every call succeeds and the task handle is 1. -/
def okDriver : Driver := { status := fun _ _ => 0, newTask := fun _ => 1 }

/-- A driver that refuses every buffer write with status `-200621`. -/
def writeFailDriver : Driver :=
  { status := fun _ c => match c with
      | .writeDigitalU8 _ _ _ _ _ => -200621
      | _ => 0,
    newTask := fun _ => 1 }

/-- A driver that creates task 7 and then refuses the channel with status `-200220`. -/
def chanFailDriver : Driver :=
  { status := fun _ c => match c with
      | .createDOChan _ _ => -200220
      | _ => 0,
    newTask := fun _ => 7 }

/-- A driver that refuses to stop a task with status `-200088`. -/
def stopFailDriver : Driver :=
  { status := fun _ c => match c with
      | .stopTask _ => -200088
      | _ => 0,
    newTask := fun _ => 1 }

/-- An object whose memory is all zero. -/
def zeroMem : DAQMX := { taskHandle := 0, DAQdata := fun _ => 0, connected := false, error := 0 }

/-- A connected object on task 1. -/
def streamingDev : DAQMX :=
  { taskHandle := 1, DAQdata := fun _ => 0, connected := true, error := 0 }

/-- An object left by a failed construction. -/
def faultedDev : DAQMX :=
  { taskHandle := 0, DAQdata := fun _ => 0, connected := false, error := -200220 }

/-! ## Frames and duty cycles in `OpenGLDemo.cpp` -/

/-- The constant `DAQmx_Val_WaitInfinitely` of `NIDAQmx.h` (`-1.0`): the
time-out value that asks a driver call to wait without limit. -/
def DAQmx_Val_WaitInfinitely : Int := -1

/-- The time-out argument of a driver call, for the calls that take one. -/
def DriverCall.timeoutArg : DriverCall → Option Int
  | .writeDigitalU8 _ _ _ t _ => some t
  | _ => none

/-- The arithmetic of `drawLeapFrame` is in `float` and `double`: the value a
result or a literal is rounded to in each of the two formats. -/
structure Rounding where
  toFloat : ℚ → ℚ
  toDouble : ℚ → ℚ

/-- What the theorems use of the two roundings: each is monotone and leaves
the sixteenths `k/16` with `|k| ≤ 2^20` as they are (these have few enough
binary digits for both formats). -/
def Rounding.Faithful (fp : Rounding) : Prop :=
  Monotone fp.toFloat ∧ Monotone fp.toDouble ∧
  (∀ k : Int, |k| ≤ 2 ^ 20 → fp.toFloat ((k : ℚ) / 16) = (k : ℚ) / 16) ∧
  (∀ k : Int, |k| ≤ 2 ^ 20 → fp.toDouble ((k : ℚ) / 16) = (k : ℚ) / 16)

/-- Arithmetic without rounding error. -/
def exactFP : Rounding := { toFloat := fun q => q, toDouble := fun q => q }

/-- A fingertip as `drawLeapFrame` tests it: the coordinates `vStartPos.x` and
`vStartPos.y`, and the value of
`vStartPos.distanceTo(Leap::Vector(vStartPos.x, vStartPos.y, 0))`. -/
structure Pointable where
  x : ℚ
  y : ℚ
  dist : ℚ

/-- The pointables of a hand, `hand.pointables()`. -/
abbrev Hand : Type := List Pointable

/-- The hands of a frame, `frame.hands()`. -/
abbrev Frame : Type := List Hand

/-- The conversion `int(...)` of a `double`: truncation toward zero. -/
def truncate (q : ℚ) : Int := if 0 ≤ q then ⌊q⌋ else ⌈q⌉

/-- The value `int(255*(c/2+0.75))` assigned to `val`, for a coordinate `c`:
the quotient is a `float`, sum and product are `double`, and the `float val`
holds the resulting integer as it is. -/
def intensity (fp : Rounding) (c : ℚ) : Int :=
  truncate (fp.toDouble (255 * fp.toDouble (fp.toFloat (c / 2) + fp.toDouble (3 / 4))))

/-- The byte an assignment to an `unsigned char` keeps of an integer value:
its residue modulo 256 (for a `float` outside 0..255 the language fixes no
result; the low byte is what the x86 conversion leaves). -/
def toUInt8 (v : Int) : Fin 256 := Fin.ofNat (v % 256).toNat

/-- The test `vStartPos.distanceTo(Leap::Vector(vStartPos.x, vStartPos.y, 0)) <= 0.1`. -/
def nearPlane (fp : Rounding) (p : Pointable) : Bool := decide (p.dist ≤ fp.toDouble (1 / 10))

/-- The test `y>=0.4 && y<=0.6 && x>=-0.5 && x<=0.5` of the upper zone. -/
def inUp (fp : Rounding) (p : Pointable) : Bool :=
  decide (p.y ≥ fp.toDouble (2 / 5)) && decide (p.y ≤ fp.toDouble (3 / 5)) &&
  decide (p.x ≥ -fp.toDouble (1 / 2)) && decide (p.x ≤ fp.toDouble (1 / 2))

/-- The test `y>=-0.6 && y<=-0.4 && x>=-0.5 && x<=0.5` of the lower zone. -/
def inDown (fp : Rounding) (p : Pointable) : Bool :=
  decide (p.y ≥ -fp.toDouble (3 / 5)) && decide (p.y ≤ -fp.toDouble (2 / 5)) &&
  decide (p.x ≥ -fp.toDouble (1 / 2)) && decide (p.x ≤ fp.toDouble (1 / 2))

/-- The test `y>=-0.5 && y<=0.5 && x>=0.4 && x<=0.6` of the right zone. -/
def inRight (fp : Rounding) (p : Pointable) : Bool :=
  decide (p.y ≥ -fp.toDouble (1 / 2)) && decide (p.y ≤ fp.toDouble (1 / 2)) &&
  decide (p.x ≥ fp.toDouble (2 / 5)) && decide (p.x ≤ fp.toDouble (3 / 5))

/-- The test `y>=-0.5 && y<=0.5 && x>=-0.6 && x<=-0.4` of the left zone. -/
def inLeft (fp : Rounding) (p : Pointable) : Bool :=
  decide (p.y ≥ -fp.toDouble (1 / 2)) && decide (p.y ≤ fp.toDouble (1 / 2)) &&
  decide (p.x ≥ -fp.toDouble (3 / 5)) && decide (p.x ≤ -fp.toDouble (2 / 5))

/-- The part of the loop body over the pointables that touches `dc`: the four
zone tests under the proximity test, each assigning `val` and `383-val` to
its pair of channels. -/
def drawLeapFrame.pointable (fp : Rounding) (dc : DutyCycle) (p : Pointable) : DutyCycle :=
  if nearPlane fp p then
    let dc1 := if inUp fp p then
        Function.update (Function.update dc 0 (toUInt8 (intensity fp p.x))) 2
          (toUInt8 (383 - intensity fp p.x))
      else dc
    let dc2 := if inDown fp p then
        Function.update (Function.update dc1 3 (toUInt8 (383 - intensity fp p.x))) 4
          (toUInt8 (intensity fp p.x))
      else dc1
    let dc3 := if inRight fp p then
        Function.update (Function.update dc2 0 (toUInt8 (intensity fp p.y))) 4
          (toUInt8 (383 - intensity fp p.y))
      else dc2
    if inLeft fp p then
        Function.update (Function.update dc3 2 (toUInt8 (intensity fp p.y))) 3
          (toUInt8 (383 - intensity fp p.y))
      else dc3
  else dc

/-- The vector `dc` of one hand when `SP->writePWM(dc)` is reached:
`unsigned char dc[8] = {0,0,0,0,0,0,0,0}` updated by every pointable in turn. -/
def drawLeapFrame.handDC (fp : Rounding) (hand : Hand) : DutyCycle :=
  hand.foldl (drawLeapFrame.pointable fp) (fun _ => 0)

/-- The device part of `OpenGLDemo::drawLeapFrame(Leap::Frame frame)`: for each
hand in turn, `SP->writePWM(dc)` with the vector of that hand. -/
def OpenGLDemo.drawLeapFrame (fp : Rounding) (drv : Driver) (frame : Frame) (SP : DAQMX)
    (log : List Event) : DAQMX × List Event :=
  frame.foldl (fun r hand => DAQMX.writePWM drv r.1 (drawLeapFrame.handDC fp hand) r.2) (SP, log)

/-- The members of `class OpenGLDemo` that frames and the device pass through;
`repaint` records a pending `openGLContext.triggerRepaint()`. -/
structure Shell where
  m_lastFrame : Frame
  SP : DAQMX
  repaint : Bool

/-- The sensor callback `OpenGLDemo::onFrame`, for the frame the controller
hands over: `m_lastFrame = frame; openGLContext.triggerRepaint();`. -/
def OpenGLDemo.onFrame (frame : Frame) (sh : Shell) (log : List Event) : Shell × List Event :=
  ({ sh with m_lastFrame := frame, repaint := true }, log)

/-- The device part of the render callback `OpenGLDemo::renderOpenGL`:
`Leap::Frame frame = m_lastFrame; drawLeapFrame(frame);`. -/
def OpenGLDemo.renderOpenGL (fp : Rounding) (drv : Driver) (sh : Shell) (log : List Event) :
    Shell × List Event :=
  let r := OpenGLDemo.drawLeapFrame fp drv sh.m_lastFrame sh.SP log
  ({ sh with SP := r.1 }, r.2)

/-- The number of samples of a buffer with bit `j` set. -/
def countHigh (d : Buffer) (j : Fin 8) : Nat :=
  (Finset.univ.filter (fun i : Fin Nsamp => (d i).testBit j.val = true)).card

/-- A fingertip on the plane at `x = -0.5`, `y = 0.5625`. -/
def tipUpLeft : Pointable := { x := -1 / 2, y := 9 / 16, dist := 0 }

/-- A fingertip far from the plane. -/
def tipFar : Pointable := { x := 0, y := 0, dist := 1 }

/-- A shell whose device is connected and that has seen no frame yet. -/
def idleShell : Shell := { m_lastFrame := [], SP := streamingDev, repaint := false }

/-! ## Auxiliary definitions for the proofs -/

/-- One shift-and-add of the inner loop on a single cell. -/
def pushBit (x : Nat) (b : Bool) : Nat := ((x <<< 1) % 256 + b.toNat) % 256

/-- The byte assembled from eight channel levels, most significant first. -/
def packBits (b7 b6 b5 b4 b3 b2 b1 b0 : Bool) : Nat :=
  pushBit (pushBit (pushBit (pushBit (pushBit (pushBit (pushBit (pushBit 0 b7) b6) b5) b4) b3) b2)
    b1) b0

/-- The level of channel `j` at sample `i`. -/
def level (dc : DutyCycle) (i : Fin Nsamp) (j : Fin 8) : Bool := decide (i.val < (dc j).val)

/-- The byte `createPWM` leaves at sample `i`. -/
def sample (dc : DutyCycle) (i : Fin Nsamp) : Nat :=
  packBits (level dc i 7) (level dc i 6) (level dc i 5) (level dc i 4)
    (level dc i 3) (level dc i 2) (level dc i 1) (level dc i 0)

/-! ## Auxiliary facts about `createPWM` -/

theorem step_eq (dc : DutyCycle) (i : Fin Nsamp) (d : Buffer) (j : Fin 8) :
    createPWM.step dc i d j =
      Function.update d i (pushBit (d i) (level dc i j)) := by
  unfold createPWM.step level pushBit
  by_cases h : i.val < (dc j).val <;> simp [h]

theorem body_eq (dc : DutyCycle) (d : Buffer) (i : Fin Nsamp) :
    createPWM.body dc d i = Function.update d i (sample dc i) := by
  unfold createPWM.body
  simp only [List.foldl_cons, List.foldl_nil, step_eq, Function.update_same, Function.update_idem]
  rfl

theorem packBits_bit : ∀ (b7 b6 b5 b4 b3 b2 b1 b0 : Bool) (j : Fin 8),
    bit (packBits b7 b6 b5 b4 b3 b2 b1 b0) j = [b0, b1, b2, b3, b4, b5, b6, b7].getD j.val false := by
  decide

theorem foldl_body_apply (dc : DutyCycle) (l : List (Fin Nsamp)) (d : Buffer) (i : Fin Nsamp) :
    (l.foldl (createPWM.body dc) d) i = if i ∈ l then sample dc i else d i := by
  induction l generalizing d with
  | nil => simp
  | cons a l ih =>
    rw [List.foldl_cons, ih, body_eq]
    by_cases h : i ∈ l
    · simp [h]
    · by_cases ha : i = a
      · subst ha; simp [h]
      · simp [h, ha, Function.update_noteq ha]

theorem fill_apply (dc : DutyCycle) (d : Buffer) (i : Fin Nsamp) :
    createPWM.fill dc d i = sample dc i := by
  unfold createPWM.fill
  rw [foldl_body_apply, if_pos (List.mem_finRange i)]

theorem sample_bit (dc : DutyCycle) (i : Fin Nsamp) (j : Fin 8) :
    bit (sample dc i) j = level dc i j := by
  unfold sample
  rw [packBits_bit]
  fin_cases j <;> rfl

theorem createPWM_data (s : DAQMX) (dc : DutyCycle) (i : Fin Nsamp) :
    (s.createPWM dc).DAQdata i = sample dc i := by
  simp [DAQMX.createPWM, fill_apply]

theorem card_val_lt (k : Nat) (hk : k < Nsamp) :
    (Finset.univ.filter (fun i : Fin Nsamp => i.val < k)).card = k := by
  have h : Finset.univ.filter (fun i : Fin Nsamp => i.val < k) = Finset.Iio (⟨k, hk⟩ : Fin Nsamp) := by
    ext i
    simp [Fin.lt_def]
  rw [h, Fin.card_Iio]

theorem taskEvents_append (a b : List Event) :
    taskEvents (a ++ b) = taskEvents a ++ taskEvents b := by
  induction a with
  | nil => rfl
  | cons e a ih =>
    cases e with
    | call c st =>
      by_cases hc : c.isTaskCall = true
      · simp [taskEvents, hc, ih]
      · simp [taskEvents, hc, ih]
    | printf => simp [taskEvents, ih]

theorem taskEvents_errorReport (drv : Driver) (log : List Event) :
    taskEvents (errorReport drv log) = [] := by
  simp [errorReport, taskEvents, DriverCall.isTaskCall]

theorem atError_fst (drv : Driver) (s : DAQMX) (log : List Event) :
    (DAQMX.atError drv s log).1 = s := by
  unfold DAQMX.atError
  split <;> rfl

theorem atError_snd (drv : Driver) (s : DAQMX) (log : List Event) :
    (DAQMX.atError drv s log).2
      = log ++ (if DAQmxFailed s.error then errorReport drv log else []) := by
  unfold DAQMX.atError
  split <;> simp

theorem createPWM_eq (s : DAQMX) (dc : DutyCycle) :
    s.createPWM dc = { s with DAQdata := sample dc } := by
  unfold DAQMX.createPWM
  rw [show createPWM.fill dc s.DAQdata = sample dc from funext (fill_apply dc s.DAQdata)]

theorem writePWM_eq (drv : Driver) (s : DAQMX) (dc : DutyCycle) (log : List Event) :
    DAQMX.writePWM drv s dc log =
      ({ taskHandle := s.taskHandle, DAQdata := sample dc, connected := s.connected,
         error := drv.status log
           (.writeDigitalU8 s.taskHandle Nsamp false 10 (readBuffer (sample dc))) },
       log ++ Event.call (.writeDigitalU8 s.taskHandle Nsamp false 10 (readBuffer (sample dc)))
           (drv.status log (.writeDigitalU8 s.taskHandle Nsamp false 10 (readBuffer (sample dc))))
         :: (if DAQmxFailed (drv.status log
                (.writeDigitalU8 s.taskHandle Nsamp false 10 (readBuffer (sample dc))))
             then errorReport drv (log ++ [Event.call
                (.writeDigitalU8 s.taskHandle Nsamp false 10 (readBuffer (sample dc)))
                (drv.status log
                  (.writeDigitalU8 s.taskHandle Nsamp false 10 (readBuffer (sample dc))))])
             else [])) := by
  unfold DAQMX.writePWM
  simp only [createPWM_eq]
  apply Prod.ext
  · simp only [atError_fst]
  · simp only [atError_snd, List.append_assoc, List.singleton_append]

theorem readBuffer_zero : readBuffer (sample (fun _ => 0)) = List.replicate Nsamp 0 := by
  have h : sample (fun _ => 0) = fun _ => 0 := by
    funext i
    rfl
  rw [h]
  unfold readBuffer
  rw [List.ofFn_const]

theorem readBuffer_length (d : Buffer) : (readBuffer d).length = 256 := by
  unfold readBuffer
  rw [List.length_ofFn]

theorem ctorDC_eq : ctorDC = constDC 128 := rfl

theorem atError_eq (drv : Driver) (s : DAQMX) (log : List Event) :
    ∃ rep, taskEvents rep = [] ∧ (DAQmxFailed s.error = false → rep = []) ∧
      DAQMX.atError drv s log = (s, log ++ rep) := by
  unfold DAQMX.atError
  by_cases h : DAQmxFailed s.error = true
  · exact ⟨errorReport drv log, taskEvents_errorReport drv log, by simp [h], by simp [h]⟩
  · exact ⟨[], rfl, fun _ => rfl, by simp [h]⟩

/-- The six ways through the constructor: a failure at one of the five task
calls, or none. -/
theorem ctor_cases (drv : Driver) (portName : String) (mem : DAQMX) (log : List Event) :
    ∃ (r1 r2 r3 r4 r5 : Int) (rep : List Event), taskEvents rep = [] ∧
      ((DAQmxFailed r1 = true ∧
          DAQMX.ctor drv portName mem log =
            ({ taskHandle := drv.newTask log, DAQdata := mem.DAQdata, connected := false,
               error := r1 },
             log ++ ([Event.call .createTask r1] ++ rep))) ∨
       (DAQmxFailed r1 = false ∧ DAQmxFailed r2 = true ∧
          DAQMX.ctor drv portName mem log =
            ({ taskHandle := drv.newTask log, DAQdata := mem.DAQdata, connected := false,
               error := r2 },
             log ++ ([Event.call .createTask r1,
               Event.call (.createDOChan (drv.newTask log) portName) r2] ++ rep))) ∨
       (DAQmxFailed r1 = false ∧ DAQmxFailed r2 = false ∧ DAQmxFailed r3 = true ∧
          DAQMX.ctor drv portName mem log =
            ({ taskHandle := drv.newTask log, DAQdata := mem.DAQdata, connected := false,
               error := r3 },
             log ++ ([Event.call .createTask r1,
               Event.call (.createDOChan (drv.newTask log) portName) r2,
               Event.call (.cfgSampClkTiming (drv.newTask log) Fclk Nsamp) r3] ++ rep))) ∨
       (DAQmxFailed r1 = false ∧ DAQmxFailed r2 = false ∧ DAQmxFailed r3 = false ∧
          DAQmxFailed r4 = true ∧
          DAQMX.ctor drv portName mem log =
            ({ taskHandle := drv.newTask log, DAQdata := sample (constDC 128),
               connected := false, error := r4 },
             log ++ ([Event.call .createTask r1,
               Event.call (.createDOChan (drv.newTask log) portName) r2,
               Event.call (.cfgSampClkTiming (drv.newTask log) Fclk Nsamp) r3,
               Event.call (.writeDigitalU8 (drv.newTask log) Nsamp false 10
                 (readBuffer (sample (constDC 128)))) r4] ++ rep))) ∨
       (DAQmxFailed r1 = false ∧ DAQmxFailed r2 = false ∧ DAQmxFailed r3 = false ∧
          DAQmxFailed r4 = false ∧ DAQmxFailed r5 = true ∧
          DAQMX.ctor drv portName mem log =
            ({ taskHandle := drv.newTask log, DAQdata := sample (constDC 128),
               connected := false, error := r5 },
             log ++ ([Event.call .createTask r1,
               Event.call (.createDOChan (drv.newTask log) portName) r2,
               Event.call (.cfgSampClkTiming (drv.newTask log) Fclk Nsamp) r3,
               Event.call (.writeDigitalU8 (drv.newTask log) Nsamp false 10
                 (readBuffer (sample (constDC 128)))) r4,
               Event.call (.startTask (drv.newTask log)) r5] ++ rep))) ∨
       (DAQmxFailed r1 = false ∧ DAQmxFailed r2 = false ∧ DAQmxFailed r3 = false ∧
          DAQmxFailed r4 = false ∧ DAQmxFailed r5 = false ∧
          DAQMX.ctor drv portName mem log =
            ({ taskHandle := drv.newTask log, DAQdata := sample (constDC 128),
               connected := true, error := r5 },
             log ++ [Event.call .createTask r1,
               Event.call (.createDOChan (drv.newTask log) portName) r2,
               Event.call (.cfgSampClkTiming (drv.newTask log) Fclk Nsamp) r3,
               Event.call (.writeDigitalU8 (drv.newTask log) Nsamp false 10
                 (readBuffer (sample (constDC 128)))) r4,
               Event.call (.startTask (drv.newTask log)) r5]))) := by
  unfold DAQMX.ctor
  dsimp only
  generalize drv.status log .createTask = r1
  generalize drv.status _ (.createDOChan _ _) = r2
  generalize drv.status _ (.cfgSampClkTiming _ _ _) = r3
  simp only [createPWM_eq, ctorDC_eq]
  generalize drv.status _ (.writeDigitalU8 _ _ _ _ _) = r4
  generalize drv.status _ (.startTask _) = r5
  split_ifs with h1 h2 h3 h4 h5
  · obtain ⟨rep, hrep, -, heq⟩ := atError_eq drv
      { taskHandle := drv.newTask log, DAQdata := mem.DAQdata, connected := false, error := r1 }
      (log ++ [Event.call .createTask r1])
    refine ⟨r1, r2, r3, r4, r5, rep, hrep, Or.inl ⟨h1, ?_⟩⟩
    rw [heq, List.append_assoc]
  · obtain ⟨rep, hrep, -, heq⟩ := atError_eq drv
      { taskHandle := drv.newTask log, DAQdata := mem.DAQdata, connected := false, error := r2 }
      (log ++ [Event.call .createTask r1] ++
        [Event.call (.createDOChan (drv.newTask log) portName) r2])
    refine ⟨r1, r2, r3, r4, r5, rep, hrep, Or.inr (Or.inl ⟨by simpa using h1, h2, ?_⟩)⟩
    rw [heq]
    simp only [List.append_assoc, List.cons_append, List.nil_append]
  · obtain ⟨rep, hrep, -, heq⟩ := atError_eq drv
      { taskHandle := drv.newTask log, DAQdata := mem.DAQdata, connected := false, error := r3 }
      (log ++ [Event.call .createTask r1] ++
        [Event.call (.createDOChan (drv.newTask log) portName) r2] ++
        [Event.call (.cfgSampClkTiming (drv.newTask log) Fclk Nsamp) r3])
    refine ⟨r1, r2, r3, r4, r5, rep, hrep,
      Or.inr (Or.inr (Or.inl ⟨by simpa using h1, by simpa using h2, h3, ?_⟩))⟩
    rw [heq]
    simp only [List.append_assoc, List.cons_append, List.nil_append]
  · obtain ⟨rep, hrep, -, heq⟩ := atError_eq drv
      { taskHandle := drv.newTask log, DAQdata := sample (constDC 128), connected := false,
        error := r4 }
      (log ++ [Event.call .createTask r1] ++
        [Event.call (.createDOChan (drv.newTask log) portName) r2] ++
        [Event.call (.cfgSampClkTiming (drv.newTask log) Fclk Nsamp) r3] ++
        [Event.call (.writeDigitalU8 (drv.newTask log) Nsamp false 10
          (readBuffer (sample (constDC 128)))) r4])
    refine ⟨r1, r2, r3, r4, r5, rep, hrep,
      Or.inr (Or.inr (Or.inr (Or.inl
        ⟨by simpa using h1, by simpa using h2, by simpa using h3, h4, ?_⟩)))⟩
    rw [heq]
    simp only [List.append_assoc, List.cons_append, List.nil_append]
  · obtain ⟨rep, hrep, -, heq⟩ := atError_eq drv
      { taskHandle := drv.newTask log, DAQdata := sample (constDC 128), connected := false,
        error := r5 }
      (log ++ [Event.call .createTask r1] ++
        [Event.call (.createDOChan (drv.newTask log) portName) r2] ++
        [Event.call (.cfgSampClkTiming (drv.newTask log) Fclk Nsamp) r3] ++
        [Event.call (.writeDigitalU8 (drv.newTask log) Nsamp false 10
          (readBuffer (sample (constDC 128)))) r4] ++
        [Event.call (.startTask (drv.newTask log)) r5])
    refine ⟨r1, r2, r3, r4, r5, rep, hrep,
      Or.inr (Or.inr (Or.inr (Or.inr (Or.inl
        ⟨by simpa using h1, by simpa using h2, by simpa using h3, by simpa using h4, h5,
          ?_⟩))))⟩
    rw [heq]
    simp only [List.append_assoc, List.cons_append, List.nil_append]
  · obtain ⟨rep, -, hnil, heq⟩ := atError_eq drv
      { taskHandle := drv.newTask log, DAQdata := sample (constDC 128), connected := true,
        error := r5 }
      (log ++ [Event.call .createTask r1] ++
        [Event.call (.createDOChan (drv.newTask log) portName) r2] ++
        [Event.call (.cfgSampClkTiming (drv.newTask log) Fclk Nsamp) r3] ++
        [Event.call (.writeDigitalU8 (drv.newTask log) Nsamp false 10
          (readBuffer (sample (constDC 128)))) r4] ++
        [Event.call (.startTask (drv.newTask log)) r5])
    have hrep : rep = [] := hnil (by simpa using h5)
    subst hrep
    refine ⟨r1, r2, r3, r4, r5, [], rfl,
      Or.inr (Or.inr (Or.inr (Or.inr (Or.inr
        ⟨by simpa using h1, by simpa using h2, by simpa using h3, by simpa using h4,
          by simpa using h5, ?_⟩))))⟩
    rw [heq]
    simp only [List.append_assoc, List.cons_append, List.nil_append, List.append_nil]

theorem data_testBit (s : DAQMX) (dc : DutyCycle) (i : Fin Nsamp) (j : Fin 8) :
    ((s.createPWM dc).DAQdata i).testBit j.val = decide (i.val < (dc j).val) := by
  have h := sample_bit dc i j
  rw [createPWM_data]
  unfold bit level at h
  exact h

/-! ## The waveform encoder -/

/-- C1: for every duty-cycle vector, sample index `i` and channel `j`, bit `j`
of sample `i` of the buffer left by `createPWM` is 1 exactly when
`i < dc[j]`; channel `j` is bit `j` of the byte (bit 0 the least significant). -/
theorem createPWM_bit_iff (s : DAQMX) (dc : DutyCycle) (i : Fin Nsamp) (j : Fin 8) :
    ((s.createPWM dc).DAQdata i).testBit j.val = true ↔ i.val < (dc j).val := by
  rw [data_testBit, decide_eq_true_eq]

/-- C2: for every duty-cycle vector and channel `j`, the number of sample
indices at which bit `j` is set is exactly `dc[j]`, so the duty fraction of
channel `j` is `dc[j] / 256`. -/
theorem createPWM_count (s : DAQMX) (dc : DutyCycle) (j : Fin 8) :
    (Finset.univ.filter
        (fun i : Fin Nsamp => ((s.createPWM dc).DAQdata i).testBit j.val = true)).card
      = (dc j).val ∧
    ((Finset.univ.filter
        (fun i : Fin Nsamp => ((s.createPWM dc).DAQdata i).testBit j.val = true)).card : ℚ)
      / Nsamp = ((dc j).val : ℚ) / 256 := by
  have h : (Finset.univ.filter
        (fun i : Fin Nsamp => ((s.createPWM dc).DAQdata i).testBit j.val = true)).card
      = (dc j).val := by
    simp only [data_testBit, decide_eq_true_eq]
    exact card_val_lt _ (dc j).isLt
  refine ⟨h, ?_⟩
  rw [h]
  norm_num

/-- C3 (counterexample): with every channel at 255 the last sample of the
buffer is `0x00`, not `0xFF`, and with `[0,255,0,0,0,0,0,0]` bit 1 of the
last sample is clear, although the duty value is 255. -/
theorem createPWM_255_last_sample :
    constDC 255 0 = 255 ∧
    (zeroMem.createPWM (constDC 255)).DAQdata 255 = 0 ∧
    mkDC 0 255 0 0 0 0 0 0 1 = 255 ∧
    ((zeroMem.createPWM (mkDC 0 255 0 0 0 0 0 0)).DAQdata 255).testBit 1 = false := by
  refine ⟨rfl, ?_, rfl, ?_⟩ <;> rw [createPWM_data] <;> decide

/-- C3 (amended): a duty value of 255 means high for the first 255 of the 256
samples: for every channel `j` with `dc[j] = 255`, bit `j` is set in samples
0..254 and clear in sample 255; with all channels at 255 the samples 0..254
are `0xFF` and sample 255 is `0x00`; with `[0,255,0,0,0,0,0,0]` bit 1 is set
in samples 0..254 and clear in sample 255. -/
theorem createPWM_255 (s : DAQMX) (dc : DutyCycle) (j : Fin 8) (h : dc j = 255) :
    (∀ i : Fin Nsamp, ((s.createPWM dc).DAQdata i).testBit j.val = decide (i.val < 255)) ∧
    (∀ i : Fin Nsamp,
      (s.createPWM (constDC 255)).DAQdata i = if i.val < 255 then 0xFF else 0x00) ∧
    (∀ i : Fin Nsamp,
      ((s.createPWM (mkDC 0 255 0 0 0 0 0 0)).DAQdata i).testBit 1 = decide (i.val < 255)) := by
  refine ⟨fun i => ?_, fun i => ?_, fun i => ?_⟩
  · have hb := sample_bit dc i j
    rw [createPWM_data]
    unfold bit level at hb
    rw [hb, h]
    rfl
  · rw [createPWM_data]
    unfold sample level constDC
    by_cases hi : i.val < 255
    · have h255 : i.val < (255 : Fin 256).val := hi
      simp only [h255, hi, decide_True, if_true]
      rfl
    · have h255 : ¬ i.val < (255 : Fin 256).val := hi
      simp only [h255, hi, decide_False, if_false]
      rfl
  · have hb := sample_bit (mkDC 0 255 0 0 0 0 0 0) i 1
    rw [createPWM_data]
    unfold bit level at hb
    exact hb

/-- C3 (witness): the amended statement at all channels 255, channel 3. -/
theorem createPWM_255_witness :
    constDC 255 3 = 255 ∧
    ((∀ i : Fin Nsamp,
        ((zeroMem.createPWM (constDC 255)).DAQdata i).testBit (3 : Fin 8).val
          = decide (i.val < 255)) ∧
     (∀ i : Fin Nsamp,
        (zeroMem.createPWM (constDC 255)).DAQdata i = if i.val < 255 then 0xFF else 0x00) ∧
     (∀ i : Fin Nsamp,
        ((zeroMem.createPWM (mkDC 0 255 0 0 0 0 0 0)).DAQdata i).testBit 1
          = decide (i.val < 255))) :=
  ⟨rfl, createPWM_255 zeroMem (constDC 255) 3 rfl⟩


/-! ## The device life cycle -/

/-- C4 (counterexample): on an object left not connected by a failed
construction, `writePWM` still issues a driver write, overwrites the buffer
and replaces the recorded error. -/
theorem writePWM_not_connected_touches :
    faultedDev.connected = false ∧
    (DAQMX.writePWM okDriver faultedDev (constDC 255) []).2
      = [Event.call (.writeDigitalU8 0 256 false 10
          (readBuffer (faultedDev.createPWM (constDC 255)).DAQdata)) 0] ∧
    faultedDev.DAQdata 0 = 0 ∧
    (DAQMX.writePWM okDriver faultedDev (constDC 255) []).1.DAQdata 0 = 255 ∧
    faultedDev.error = -200220 ∧
    (DAQMX.writePWM okDriver faultedDev (constDC 255) []).1.error = 0 := by
  simp only [writePWM_eq, createPWM_eq]
  refine ⟨rfl, ?_, rfl, ?_, rfl, rfl⟩
  · rfl
  · decide

/-- C4 (amended): `writePWM` does not look at the connected flag. On an object
that is not connected it overwrites the buffer with `createPWM(dc)`, issues
one driver write of that buffer on the stored task handle and replaces the
recorded error by the status of that write; only the connected flag (still
false) and the task handle are what they were. -/
theorem writePWM_not_connected (drv : Driver) (s : DAQMX) (dc : DutyCycle) (log : List Event)
    (h : s.connected = false) :
    ∃ new, (DAQMX.writePWM drv s dc log).2 = log ++ new ∧
      taskEvents new
        = [(DriverCall.writeDigitalU8 s.taskHandle Nsamp false 10
              (readBuffer (s.createPWM dc).DAQdata),
            (DAQMX.writePWM drv s dc log).1.error)] ∧
      (DAQMX.writePWM drv s dc log).1.DAQdata = (s.createPWM dc).DAQdata ∧
      (DAQMX.writePWM drv s dc log).1.connected = false ∧
      (DAQMX.writePWM drv s dc log).1.taskHandle = s.taskHandle := by
  simp only [writePWM_eq, createPWM_eq]
  refine ⟨_, rfl, ?_, trivial, h, trivial⟩
  split <;> simp [taskEvents, DriverCall.isTaskCall, errorReport]

/-- C4 (witness): the amended statement on the object of a failed construction. -/
theorem writePWM_not_connected_witness :
    faultedDev.connected = false ∧
    ∃ new, (DAQMX.writePWM okDriver faultedDev (constDC 255) []).2 = [] ++ new ∧
      taskEvents new
        = [(DriverCall.writeDigitalU8 faultedDev.taskHandle Nsamp false 10
              (readBuffer (faultedDev.createPWM (constDC 255)).DAQdata),
            (DAQMX.writePWM okDriver faultedDev (constDC 255) []).1.error)] ∧
      (DAQMX.writePWM okDriver faultedDev (constDC 255) []).1.DAQdata
        = (faultedDev.createPWM (constDC 255)).DAQdata ∧
      (DAQMX.writePWM okDriver faultedDev (constDC 255) []).1.connected = false ∧
      (DAQMX.writePWM okDriver faultedDev (constDC 255) []).1.taskHandle
        = faultedDev.taskHandle :=
  ⟨rfl, writePWM_not_connected okDriver faultedDev (constDC 255) [] rfl⟩

/-- C5 (counterexample): on a connected object whose write the driver refuses,
`writePWM` makes two driver calls, the write and the error-text query. -/
theorem writePWM_refused_two_calls :
    streamingDev.connected = true ∧
    driverCalls (DAQMX.writePWM writeFailDriver streamingDev (constDC 128) []).2
      = [DriverCall.writeDigitalU8 1 256 false 10
            (readBuffer (streamingDev.createPWM (constDC 128)).DAQdata),
         DriverCall.getExtendedErrorInfo 2048] := by
  refine ⟨rfl, ?_⟩
  rw [writePWM_eq, createPWM_eq]
  rfl

/-- C5 (amended): on a connected object `writePWM(dc)` issues exactly one call
on the task, the write of all `Nsamp = 256` samples of `createPWM(dc)`, and
no stop, start, clear or configuration call; it is the only driver call when
the driver accepts the write, and when the driver refuses it one more driver
call follows, the error-text query of the error report. In both cases the
object is still connected and its buffer is `createPWM(dc)`. -/
theorem writePWM_connected (drv : Driver) (s : DAQMX) (dc : DutyCycle) (log : List Event)
    (h : s.connected = true) :
    (DAQMX.writePWM drv s dc log).2
      = log ++ Event.call (.writeDigitalU8 s.taskHandle Nsamp false 10
            (readBuffer (s.createPWM dc).DAQdata))
          (drv.status log (.writeDigitalU8 s.taskHandle Nsamp false 10
            (readBuffer (s.createPWM dc).DAQdata)))
        :: (if DAQmxFailed (drv.status log (.writeDigitalU8 s.taskHandle Nsamp false 10
              (readBuffer (s.createPWM dc).DAQdata)))
            then [Event.call (.getExtendedErrorInfo 2048)
                (drv.status
                  (log ++ [Event.call (.writeDigitalU8 s.taskHandle Nsamp false 10
                      (readBuffer (s.createPWM dc).DAQdata))
                    (drv.status log (.writeDigitalU8 s.taskHandle Nsamp false 10
                      (readBuffer (s.createPWM dc).DAQdata)))])
                  (.getExtendedErrorInfo 2048)),
              Event.printf]
            else []) ∧
    (readBuffer (s.createPWM dc).DAQdata).length = 256 ∧
    (DAQMX.writePWM drv s dc log).1.connected = true ∧
    (DAQMX.writePWM drv s dc log).1.DAQdata = (s.createPWM dc).DAQdata := by
  rw [writePWM_eq, createPWM_eq]
  exact ⟨rfl, readBuffer_length _, h, rfl⟩

/-- C5 (witness): the amended statement on a connected object at 50% duty. -/
theorem writePWM_connected_witness :
    streamingDev.connected = true ∧
    ((DAQMX.writePWM okDriver streamingDev (constDC 128) []).2
      = [] ++ Event.call (.writeDigitalU8 streamingDev.taskHandle Nsamp false 10
            (readBuffer (streamingDev.createPWM (constDC 128)).DAQdata))
          (okDriver.status [] (.writeDigitalU8 streamingDev.taskHandle Nsamp false 10
            (readBuffer (streamingDev.createPWM (constDC 128)).DAQdata)))
        :: (if DAQmxFailed (okDriver.status [] (.writeDigitalU8 streamingDev.taskHandle Nsamp
              false 10 (readBuffer (streamingDev.createPWM (constDC 128)).DAQdata)))
            then [Event.call (.getExtendedErrorInfo 2048)
                (okDriver.status
                  ([] ++ [Event.call (.writeDigitalU8 streamingDev.taskHandle Nsamp false 10
                      (readBuffer (streamingDev.createPWM (constDC 128)).DAQdata))
                    (okDriver.status [] (.writeDigitalU8 streamingDev.taskHandle Nsamp false 10
                      (readBuffer (streamingDev.createPWM (constDC 128)).DAQdata)))])
                  (.getExtendedErrorInfo 2048)),
              Event.printf]
            else []) ∧
    (readBuffer (streamingDev.createPWM (constDC 128)).DAQdata).length = 256 ∧
    (DAQMX.writePWM okDriver streamingDev (constDC 128) []).1.connected = true ∧
    (DAQMX.writePWM okDriver streamingDev (constDC 128) []).1.DAQdata
      = (streamingDev.createPWM (constDC 128)).DAQdata) :=
  ⟨rfl, writePWM_connected okDriver streamingDev (constDC 128) [] rfl⟩

/-- C6: closing a connected device first writes the all-zero waveform: the
task calls of the shell's close are, in this order, the write of
`createPWM([0,0,0,0,0,0,0,0])` (256 zero samples), the stop of the task and
the clearing of the task; afterwards the device is not connected. -/
theorem close_streaming (drv : Driver) (SP : DAQMX) (log : List Event)
    (h : SP.connected = true) :
    ∃ new, (OpenGLDemo.dtor drv SP log).2 = log ++ new ∧
      taskCalls new
        = [DriverCall.writeDigitalU8 SP.taskHandle Nsamp false 10
              (readBuffer (SP.createPWM (constDC 0)).DAQdata),
           DriverCall.stopTask SP.taskHandle, DriverCall.clearTask SP.taskHandle] ∧
      readBuffer (SP.createPWM (constDC 0)).DAQdata = List.replicate 256 0 ∧
      (OpenGLDemo.dtor drv SP log).1.IsConnected = false := by
  unfold OpenGLDemo.dtor DAQMX.dtor DAQMX.IsConnected constDC
  simp only [writePWM_eq, createPWM_eq, h, if_true, List.append_assoc]
  refine ⟨_, rfl, ?_, readBuffer_zero, trivial⟩
  unfold taskCalls
  split <;> simp [taskEvents, DriverCall.isTaskCall, errorReport]

/-- C6 (witness): the statement on a connected object. -/
theorem close_streaming_witness :
    streamingDev.connected = true ∧
    ∃ new, (OpenGLDemo.dtor okDriver streamingDev []).2 = [] ++ new ∧
      taskCalls new
        = [DriverCall.writeDigitalU8 streamingDev.taskHandle Nsamp false 10
              (readBuffer (streamingDev.createPWM (constDC 0)).DAQdata),
           DriverCall.stopTask streamingDev.taskHandle,
           DriverCall.clearTask streamingDev.taskHandle] ∧
      readBuffer (streamingDev.createPWM (constDC 0)).DAQdata = List.replicate 256 0 ∧
      (OpenGLDemo.dtor okDriver streamingDev []).1.IsConnected = false :=
  ⟨rfl, close_streaming okDriver streamingDev [] rfl⟩

theorem ctor_paths (drv : Driver) (portName : String) (mem : DAQMX) (log : List Event) :
    DAQMX.ctor drv portName mem log =
      if DAQmxFailed (ctorStatus1 drv log) then
        DAQMX.atError drv
          { taskHandle := drv.newTask log, DAQdata := mem.DAQdata,
            connected := false, error := ctorStatus1 drv log }
          (ctorLog1 drv log)
      else if DAQmxFailed (ctorStatus2 drv portName log) then
        DAQMX.atError drv
          { taskHandle := drv.newTask log, DAQdata := mem.DAQdata,
            connected := false, error := ctorStatus2 drv portName log }
          (ctorLog2 drv portName log)
      else if DAQmxFailed (ctorStatus3 drv portName log) then
        DAQMX.atError drv
          { taskHandle := drv.newTask log, DAQdata := mem.DAQdata,
            connected := false, error := ctorStatus3 drv portName log }
          (ctorLog3 drv portName log)
      else if DAQmxFailed (ctorStatus4 drv portName mem log) then
        DAQMX.atError drv
          { taskHandle := drv.newTask log, DAQdata := (mem.createPWM ctorDC).DAQdata,
            connected := false, error := ctorStatus4 drv portName mem log }
          (ctorLog4 drv portName mem log)
      else if DAQmxFailed (ctorStatus5 drv portName mem log) then
        DAQMX.atError drv
          { taskHandle := drv.newTask log, DAQdata := (mem.createPWM ctorDC).DAQdata,
            connected := false, error := ctorStatus5 drv portName mem log }
          (ctorLog5 drv portName mem log)
      else
        DAQMX.atError drv
          { taskHandle := drv.newTask log, DAQdata := (mem.createPWM ctorDC).DAQdata,
            connected := true, error := ctorStatus5 drv portName mem log }
          (ctorLog5 drv portName mem log) := by
  unfold DAQMX.ctor ctorStatus1 ctorStatus2 ctorStatus3 ctorStatus4 ctorStatus5 ctorLog5
    ctorLog4 ctorWrite ctorLog3 ctorLog2 ctorLog1
  dsimp only [DAQMX.createPWM]

/-- C7: the constructor is a total function of the driver's answers, and
afterwards `IsConnected()` is true exactly when none of the statuses the
driver returns to the five calls (create task, create digital-output
channel, configure sample clock, write initial buffer, start task) is a
failure; when one of them is, the object is left not connected and the
status of the first failing call is the recorded error. -/
theorem ctor_connected_iff (drv : Driver) (portName : String) (mem : DAQMX)
    (log : List Event) :
    ((DAQMX.ctor drv portName mem log).1.IsConnected = true ↔
      DAQmxFailed (ctorStatus1 drv log) = false ∧
      DAQmxFailed (ctorStatus2 drv portName log) = false ∧
      DAQmxFailed (ctorStatus3 drv portName log) = false ∧
      DAQmxFailed (ctorStatus4 drv portName mem log) = false ∧
      DAQmxFailed (ctorStatus5 drv portName mem log) = false) ∧
    (DAQmxFailed (ctorStatus1 drv log) = true →
      (DAQMX.ctor drv portName mem log).1.IsConnected = false ∧
      (DAQMX.ctor drv portName mem log).1.error = ctorStatus1 drv log) ∧
    (DAQmxFailed (ctorStatus1 drv log) = false →
      DAQmxFailed (ctorStatus2 drv portName log) = true →
      (DAQMX.ctor drv portName mem log).1.IsConnected = false ∧
      (DAQMX.ctor drv portName mem log).1.error = ctorStatus2 drv portName log) ∧
    (DAQmxFailed (ctorStatus1 drv log) = false →
      DAQmxFailed (ctorStatus2 drv portName log) = false →
      DAQmxFailed (ctorStatus3 drv portName log) = true →
      (DAQMX.ctor drv portName mem log).1.IsConnected = false ∧
      (DAQMX.ctor drv portName mem log).1.error = ctorStatus3 drv portName log) ∧
    (DAQmxFailed (ctorStatus1 drv log) = false →
      DAQmxFailed (ctorStatus2 drv portName log) = false →
      DAQmxFailed (ctorStatus3 drv portName log) = false →
      DAQmxFailed (ctorStatus4 drv portName mem log) = true →
      (DAQMX.ctor drv portName mem log).1.IsConnected = false ∧
      (DAQMX.ctor drv portName mem log).1.error = ctorStatus4 drv portName mem log) ∧
    (DAQmxFailed (ctorStatus1 drv log) = false →
      DAQmxFailed (ctorStatus2 drv portName log) = false →
      DAQmxFailed (ctorStatus3 drv portName log) = false →
      DAQmxFailed (ctorStatus4 drv portName mem log) = false →
      DAQmxFailed (ctorStatus5 drv portName mem log) = true →
      (DAQMX.ctor drv portName mem log).1.IsConnected = false ∧
      (DAQMX.ctor drv portName mem log).1.error = ctorStatus5 drv portName mem log) := by
  rw [ctor_paths]
  unfold DAQMX.IsConnected
  split_ifs with h1 h2 h3 h4 h5 <;> simp_all [atError_fst]

/-- C7 (witness): on a driver that accepts every call the object is connected,
and on a driver that refuses the channel it is not and the refusal is the
recorded error. -/
theorem ctor_connected_iff_witness :
    (DAQMX.ctor okDriver shellPort zeroMem []).1.IsConnected = true ∧
    (DAQMX.ctor chanFailDriver shellPort zeroMem []).1.IsConnected = false ∧
    (DAQMX.ctor chanFailDriver shellPort zeroMem []).1.error
      = ctorStatus2 chanFailDriver shellPort [] ∧
    ctorStatus2 chanFailDriver shellPort [] = -200220 :=
  ⟨(ctor_connected_iff okDriver shellPort zeroMem []).1.mpr ⟨rfl, rfl, rfl, rfl, rfl⟩,
   ((ctor_connected_iff chanFailDriver shellPort zeroMem []).2.2.1 rfl rfl).1,
   ((ctor_connected_iff chanFailDriver shellPort zeroMem []).2.2.1 rfl rfl).2, rfl⟩

/-- C8 (counterexample): a connected object on a driver that refuses the write
has a failure recorded after `writePWM` and is still connected. -/
theorem writePWM_failure_stays_connected :
    streamingDev.IsConnected = true ∧
    (DAQMX.writePWM writeFailDriver streamingDev (constDC 128) []).1.error = -200621 ∧
    DAQmxFailed (DAQMX.writePWM writeFailDriver streamingDev (constDC 128) []).1.error = true ∧
    (DAQMX.writePWM writeFailDriver streamingDev (constDC 128) []).1.IsConnected = true := by
  simp only [writePWM_eq]
  exact ⟨rfl, rfl, rfl, rfl⟩

/-- C8 (amended): if the driver write fails during `writePWM` on a connected
object, the failing status is recorded in the error field and the error
report is printed, and the object stays connected. -/
theorem writePWM_write_fails (drv : Driver) (s : DAQMX) (dc : DutyCycle) (log : List Event)
    (h : s.connected = true)
    (hf : DAQmxFailed (drv.status log
      (.writeDigitalU8 s.taskHandle Nsamp false 10 (readBuffer (s.createPWM dc).DAQdata))) = true) :
    (DAQMX.writePWM drv s dc log).1.error
      = drv.status log
          (.writeDigitalU8 s.taskHandle Nsamp false 10 (readBuffer (s.createPWM dc).DAQdata)) ∧
    (DAQMX.writePWM drv s dc log).2.getLast? = some Event.printf ∧
    (DAQMX.writePWM drv s dc log).1.IsConnected = true := by
  simp only [createPWM_eq] at hf
  simp only [writePWM_eq, createPWM_eq, hf, if_true, DAQMX.IsConnected]
  refine ⟨trivial, ?_, h⟩
  simp [errorReport]

/-- C8 (witness): the amended statement on a driver that refuses the write. -/
theorem writePWM_write_fails_witness :
    streamingDev.connected = true ∧
    DAQmxFailed (writeFailDriver.status []
      (.writeDigitalU8 streamingDev.taskHandle Nsamp false 10
        (readBuffer (streamingDev.createPWM (constDC 128)).DAQdata))) = true ∧
    ((DAQMX.writePWM writeFailDriver streamingDev (constDC 128) []).1.error
      = writeFailDriver.status []
          (.writeDigitalU8 streamingDev.taskHandle Nsamp false 10
            (readBuffer (streamingDev.createPWM (constDC 128)).DAQdata)) ∧
    (DAQMX.writePWM writeFailDriver streamingDev (constDC 128) []).2.getLast?
      = some Event.printf ∧
    (DAQMX.writePWM writeFailDriver streamingDev (constDC 128) []).1.IsConnected = true) :=
  ⟨rfl, rfl, writePWM_write_fails writeFailDriver streamingDev (constDC 128) [] rfl rfl⟩

/-- C9: the destructor body is idempotent: after it has run the object is not
connected, and running it again makes no driver call, has no error outcome
and leaves object and log as they are. -/
theorem dtor_idempotent (drv : Driver) (s : DAQMX) (log : List Event) :
    (DAQMX.dtor drv s log).1.connected = false ∧
    DAQMX.dtor drv (DAQMX.dtor drv s log).1 (DAQMX.dtor drv s log).2 = DAQMX.dtor drv s log := by
  unfold DAQMX.dtor
  by_cases h : s.connected = true
  · simp [h]
  · simp [h]

/-- C10 (counterexample): the driver creates task 7 and then refuses the
channel; the constructor leaves the object not connected and the destructor
makes no call at all, so task 7 is never cleared. -/
theorem dtor_after_failed_ctor :
    (DAQMX.ctor chanFailDriver shellPort zeroMem []).2
      = [Event.call .createTask 0, Event.call (.createDOChan 7 shellPort) (-200220),
         Event.call (.getExtendedErrorInfo 2048) 0, Event.printf] ∧
    (DAQMX.ctor chanFailDriver shellPort zeroMem []).1.taskHandle = 7 ∧
    (DAQMX.dtor chanFailDriver (DAQMX.ctor chanFailDriver shellPort zeroMem []).1
        (DAQMX.ctor chanFailDriver shellPort zeroMem []).2).2
      = (DAQMX.ctor chanFailDriver shellPort zeroMem []).2 ∧
    ∀ st, Event.call (.clearTask 7) st ∉
      (DAQMX.dtor chanFailDriver (DAQMX.ctor chanFailDriver shellPort zeroMem []).1
        (DAQMX.ctor chanFailDriver shellPort zeroMem []).2).2 := by
  have h : DAQMX.ctor chanFailDriver shellPort zeroMem []
      = ({ taskHandle := 7, DAQdata := zeroMem.DAQdata, connected := false, error := -200220 },
         [Event.call .createTask 0, Event.call (.createDOChan 7 shellPort) (-200220),
          Event.call (.getExtendedErrorInfo 2048) 0, Event.printf]) := rfl
  rw [h]
  refine ⟨rfl, rfl, rfl, ?_⟩
  intro st
  simp [DAQMX.dtor]

/-- C10 (amended): the destructor releases the task from the connected state
only: for a connected object its calls are the stop and the clearing of the
task, and for an object that is not connected (also one whose task was
created before a later constructor step failed) it makes no call; in both
cases the object ends not connected. -/
theorem dtor_clears_iff_connected (drv : Driver) (s : DAQMX) (log : List Event) :
    ∃ new, (DAQMX.dtor drv s log).2 = log ++ new ∧
      taskCalls new
        = (if s.connected then [DriverCall.stopTask s.taskHandle,
            DriverCall.clearTask s.taskHandle] else []) ∧
      new.length = (taskCalls new).length ∧
      (DAQMX.dtor drv s log).1.connected = false := by
  unfold DAQMX.dtor
  by_cases h : s.connected = true
  · simp only [h, if_true, List.append_assoc]
    exact ⟨_, rfl, by simp [taskCalls, taskEvents, DriverCall.isTaskCall],
      by simp [taskCalls, taskEvents, DriverCall.isTaskCall], trivial⟩
  · simp only [h]
    exact ⟨[], by simp, by simp [taskCalls, taskEvents], by simp [taskCalls, taskEvents],
      by simpa using h⟩

/-! ## Further properties of the encoder and of the life cycle -/

/-- C11 (counterexample): on a connected object, a call whose driver write
fails and a call whose driver write succeeds leave the caller with the same
return value and the same answer of `IsConnected()`. -/
theorem writePWM_failure_not_returned :
    streamingDev.IsConnected = true ∧
    DAQmxFailed (DAQMX.writePWM writeFailDriver streamingDev (constDC 128) []).1.error = true ∧
    DAQmxFailed (DAQMX.writePWM okDriver streamingDev (constDC 128) []).1.error = false ∧
    callerView (DAQMX.writePWM writeFailDriver streamingDev (constDC 128) [])
      = callerView (DAQMX.writePWM okDriver streamingDev (constDC 128) []) := by
  rw [writePWM_eq, writePWM_eq]
  exact ⟨rfl, rfl, rfl, rfl⟩

/-- C11 (amended): `writePWM` returns nothing, and what the caller holds
afterwards (the `void` value and `IsConnected()`) is the same whatever the
driver answered; a failed write is only recorded in the private error field
and reported on the console, the report being printed exactly when the
write failed. -/
theorem writePWM_caller_view (drv1 drv2 : Driver) (s : DAQMX) (dc : DutyCycle)
    (log : List Event) :
    callerView (DAQMX.writePWM drv1 s dc log) = callerView (DAQMX.writePWM drv2 s dc log) ∧
    (DAQMX.writePWM drv1 s dc log).1.IsConnected = s.IsConnected ∧
    ∃ new, (DAQMX.writePWM drv1 s dc log).2 = log ++ new ∧
      taskEvents new
        = [(DriverCall.writeDigitalU8 s.taskHandle Nsamp false 10
              (readBuffer (s.createPWM dc).DAQdata),
            (DAQMX.writePWM drv1 s dc log).1.error)] ∧
      (Event.printf ∈ new ↔ DAQmxFailed (DAQMX.writePWM drv1 s dc log).1.error = true) := by
  simp only [writePWM_eq, createPWM_eq, callerView, DAQMX.IsConnected]
  refine ⟨trivial, trivial, _, rfl, ?_, ?_⟩
  · split <;> simp [taskEvents, DriverCall.isTaskCall, errorReport]
  · split <;> simp_all [errorReport]

/-- C12: the buffer left by `createPWM` depends on `dc` alone: from any two
objects (any previous buffer, error value, connected flag and task handle)
the same `dc` gives the same 256 samples. -/
theorem createPWM_depends_on_dc_only (s1 s2 : DAQMX) (dc : DutyCycle) :
    (s1.createPWM dc).DAQdata = (s2.createPWM dc).DAQdata ∧
    readBuffer (s1.createPWM dc).DAQdata = readBuffer (s2.createPWM dc).DAQdata := by
  simp only [createPWM_eq]
  exact ⟨trivial, trivial⟩

/-- C14: the buffer has exactly 256 samples and every bit-plane is
non-increasing: for sample indices `i ≤ k`, if bit `j` of sample `k` is set
then bit `j` of sample `i` is set. -/
theorem createPWM_bitplane_monotone (s : DAQMX) (dc : DutyCycle) (j : Fin 8)
    (i k : Fin Nsamp) (hik : i ≤ k)
    (hk : ((s.createPWM dc).DAQdata k).testBit j.val = true) :
    (readBuffer (s.createPWM dc).DAQdata).length = 256 ∧
    ((s.createPWM dc).DAQdata i).testBit j.val = true := by
  refine ⟨readBuffer_length _, ?_⟩
  rw [data_testBit, decide_eq_true_eq] at hk ⊢
  exact lt_of_le_of_lt hik hk

/-- C14 (witness): samples 3 and 5 of channel 2 at 50% duty. -/
theorem createPWM_bitplane_monotone_witness :
    (3 : Fin Nsamp) ≤ 5 ∧
    ((zeroMem.createPWM (constDC 128)).DAQdata 5).testBit (2 : Fin 8).val = true ∧
    ((readBuffer (zeroMem.createPWM (constDC 128)).DAQdata).length = 256 ∧
     ((zeroMem.createPWM (constDC 128)).DAQdata 3).testBit (2 : Fin 8).val = true) :=
  ⟨by decide, by rw [data_testBit]; decide,
   createPWM_bitplane_monotone zeroMem (constDC 128) 2 3 5 (by decide)
     (by rw [data_testBit]; decide)⟩

/-- C15: `createPWM([0,0,0,0,0,0,0,0])` leaves a buffer of 256 samples, every
one of them `0x00`. -/
theorem createPWM_zero (s : DAQMX) :
    (readBuffer (s.createPWM (mkDC 0 0 0 0 0 0 0 0)).DAQdata).length = 256 ∧
    readBuffer (s.createPWM (mkDC 0 0 0 0 0 0 0 0)).DAQdata = List.replicate 256 0x00 ∧
    ∀ i : Fin Nsamp, (s.createPWM (mkDC 0 0 0 0 0 0 0 0)).DAQdata i = 0x00 := by
  have h : mkDC 0 0 0 0 0 0 0 0 = fun _ => 0 := by
    funext j
    fin_cases j <;> rfl
  rw [h]
  simp only [createPWM_eq]
  refine ⟨readBuffer_length _, readBuffer_zero, fun i => rfl⟩

/-- C20: a driver error while closing does not prevent the release: on a
connected object the destructor logs the stop of the task and then, once,
the clearing of the task, whatever statuses the driver returns (a failed
stop included); the object ends not connected, its recorded error is
untouched and nothing is reported. -/
theorem dtor_clears_after_stop (drv : Driver) (s : DAQMX) (log : List Event)
    (h : s.connected = true) :
    (DAQMX.dtor drv s log).2
      = log ++ [Event.call (.stopTask s.taskHandle) (drv.status log (.stopTask s.taskHandle)),
          Event.call (.clearTask s.taskHandle)
            (drv.status
              (log ++ [Event.call (.stopTask s.taskHandle)
                (drv.status log (.stopTask s.taskHandle))])
              (.clearTask s.taskHandle))] ∧
    (DAQMX.dtor drv s log).1.IsConnected = false ∧
    (DAQMX.dtor drv s log).1.error = s.error := by
  unfold DAQMX.dtor DAQMX.IsConnected
  simp [h]

/-- C20 (witness): a connected object on a driver that refuses the stop. -/
theorem dtor_clears_after_stop_witness :
    streamingDev.connected = true ∧
    DAQmxFailed (stopFailDriver.status [] (.stopTask streamingDev.taskHandle)) = true ∧
    ((DAQMX.dtor stopFailDriver streamingDev []).2
      = [] ++ [Event.call (.stopTask streamingDev.taskHandle)
            (stopFailDriver.status [] (.stopTask streamingDev.taskHandle)),
          Event.call (.clearTask streamingDev.taskHandle)
            (stopFailDriver.status
              ([] ++ [Event.call (.stopTask streamingDev.taskHandle)
                (stopFailDriver.status [] (.stopTask streamingDev.taskHandle))])
              (.clearTask streamingDev.taskHandle))] ∧
    (DAQMX.dtor stopFailDriver streamingDev []).1.IsConnected = false ∧
    (DAQMX.dtor stopFailDriver streamingDev []).1.error = streamingDev.error) :=
  ⟨rfl, rfl, dtor_clears_after_stop stopFailDriver streamingDev [] rfl⟩

theorem ctor_log_after_two (drv : Driver) (portName : String) (mem : DAQMX) (log : List Event)
    (h1 : DAQmxFailed (drv.status log .createTask) = false)
    (h2 : DAQmxFailed (drv.status (ctorLog1 drv log)
      (.createDOChan (drv.newTask log) portName)) = false) :
    ∃ st rest, (DAQMX.ctor drv portName mem log).2
      = ctorLog2 drv portName log
        ++ Event.call (.cfgSampClkTiming (drv.newTask log) Fclk Nsamp) st :: rest := by
  unfold ctorLog2
  unfold ctorLog1 at h2 ⊢
  unfold DAQMX.ctor
  dsimp only
  generalize drv.status log .createTask = r1 at h1 h2 ⊢
  generalize drv.status _ (.createDOChan _ _) = r2 at h2 ⊢
  generalize drv.status _ (.cfgSampClkTiming _ _ _) = r3
  simp only [createPWM_eq, ctorDC_eq, h1, h2, Bool.false_eq_true, if_false]
  generalize drv.status _ (.writeDigitalU8 _ _ _ _ _) = r4
  generalize drv.status _ (.startTask _) = r5
  refine ⟨r3, ?_⟩
  split_ifs <;> simp [atError_snd]

theorem ctor_log_after_three (drv : Driver) (portName : String) (mem : DAQMX)
    (log : List Event)
    (h1 : DAQmxFailed (drv.status log .createTask) = false)
    (h2 : DAQmxFailed (drv.status (ctorLog1 drv log)
      (.createDOChan (drv.newTask log) portName)) = false)
    (h3 : DAQmxFailed (drv.status (ctorLog2 drv portName log)
      (.cfgSampClkTiming (drv.newTask log) Fclk Nsamp)) = false) :
    ∃ st rest, (DAQMX.ctor drv portName mem log).2
      = ctorLog3 drv portName log
        ++ Event.call (.writeDigitalU8 (drv.newTask log) Nsamp false 10
            (readBuffer (sample (constDC 128)))) st :: rest := by
  unfold ctorLog3
  unfold ctorLog2 at h3 ⊢
  unfold ctorLog1 at h2 h3 ⊢
  unfold DAQMX.ctor
  dsimp only
  generalize drv.status log .createTask = r1 at h1 h2 h3 ⊢
  generalize drv.status _ (.createDOChan _ _) = r2 at h2 h3 ⊢
  generalize drv.status _ (.cfgSampClkTiming _ _ _) = r3 at h3 ⊢
  simp only [createPWM_eq, ctorDC_eq, h1, h2, h3, Bool.false_eq_true, if_false]
  generalize drv.status _ (.writeDigitalU8 _ _ _ _ _) = r4
  generalize drv.status _ (.startTask _) = r5
  refine ⟨r4, ?_⟩
  split_ifs <;> simp [atError_snd]

theorem sample_half :
    sample (constDC 128) = fun i => if i.val < 128 then 0xFF else 0x00 := by
  funext i
  unfold sample level constDC
  by_cases hi : i.val < 128
  · have h128 : i.val < (128 : Fin 256).val := hi
    simp only [h128, hi, decide_True, if_true]
    rfl
  · have h128 : ¬ i.val < (128 : Fin 256).val := hi
    simp only [h128, hi, decide_False, if_false]
    rfl

/-- C17: the sample clock is `Nsamp * 30000` with `Nsamp = 256`, that is
7,680,000 samples per second, strictly below the 10 MHz maximum; once the
task and the channel are created, the constructor's next call configures the
timing with this rate and a buffer of exactly `Nsamp` samples. -/
theorem ctor_sample_clock (drv : Driver) (portName : String) (mem : DAQMX)
    (log : List Event)
    (h1 : DAQmxFailed (drv.status log .createTask) = false)
    (h2 : DAQmxFailed (drv.status (ctorLog1 drv log)
      (.createDOChan (drv.newTask log) portName)) = false) :
    Fclk = Nsamp * 30000 ∧ Nsamp = 256 ∧ Fclk = 7680000 ∧ Fclk < maxClock ∧
    ∃ st rest, (DAQMX.ctor drv portName mem log).2
      = ctorLog2 drv portName log
        ++ Event.call (.cfgSampClkTiming (drv.newTask log) 7680000 256) st :: rest :=
  ⟨rfl, rfl, rfl, by decide, ctor_log_after_two drv portName mem log h1 h2⟩

/-- C17 (witness): the constructor on a driver that accepts every call. -/
theorem ctor_sample_clock_witness :
    DAQmxFailed (okDriver.status [] .createTask) = false ∧
    DAQmxFailed (okDriver.status (ctorLog1 okDriver [])
      (.createDOChan (okDriver.newTask []) shellPort)) = false ∧
    (Fclk = Nsamp * 30000 ∧ Nsamp = 256 ∧ Fclk = 7680000 ∧ Fclk < maxClock ∧
    ∃ st rest, (DAQMX.ctor okDriver shellPort zeroMem []).2
      = ctorLog2 okDriver shellPort []
        ++ Event.call (.cfgSampClkTiming (okDriver.newTask []) 7680000 256) st :: rest) :=
  ⟨rfl, rfl, ctor_sample_clock okDriver shellPort zeroMem [] rfl rfl⟩

theorem ctorLog_events (drv : Driver) (portName : String) (mem : DAQMX) (log : List Event) :
    ctorLog1 drv log = log ++ (ctorEvents drv portName mem log).take 1 ∧
    ctorLog2 drv portName log = log ++ (ctorEvents drv portName mem log).take 2 ∧
    ctorLog3 drv portName log = log ++ (ctorEvents drv portName mem log).take 3 ∧
    ctorLog4 drv portName mem log = log ++ (ctorEvents drv portName mem log).take 4 ∧
    ctorLog5 drv portName mem log = log ++ ctorEvents drv portName mem log := by
  unfold ctorLog5 ctorLog4 ctorLog3 ctorLog2 ctorLog1 ctorEvents ctorStatus1 ctorStatus2
    ctorStatus3 ctorStatus4 ctorStatus5 ctorLog4 ctorLog3 ctorLog2 ctorLog1
  simp only [List.take_succ_cons, List.take_zero, List.append_assoc, List.singleton_append,
    List.cons_append, List.nil_append, and_self]

/-- C18 (counterexample): the driver refuses the second call; after that
failure the constructor makes one more driver call, the error-text query. -/
theorem ctor_query_after_failure :
    DAQmxFailed (ctorStatus2 chanFailDriver shellPort []) = true ∧
    driverCalls (DAQMX.ctor chanFailDriver shellPort zeroMem []).2
      = [DriverCall.createTask, DriverCall.createDOChan 7 shellPort,
         DriverCall.getExtendedErrorInfo 2048] := by
  have h : DAQMX.ctor chanFailDriver shellPort zeroMem []
      = ({ taskHandle := 7, DAQdata := zeroMem.DAQdata, connected := false, error := -200220 },
         [Event.call .createTask 0, Event.call (.createDOChan 7 shellPort) (-200220),
          Event.call (.getExtendedErrorInfo 2048) 0, Event.printf]) := rfl
  rw [h]
  exact ⟨rfl, rfl⟩

/-- C18 (amended): the task calls of the constructor are exactly the initial
part of the five calls (create task, create channel, configure clock, write
buffer, start task) that ends at the first call to which the driver returns
a failure, all five when there is none, each logged once with the status
returned; after a failing call no further call of the five is made, the only
driver call that follows being the error-text query of the error report;
the task is started only after a successful write of the buffer, and the
recorded error is the status of the first failing call. -/
theorem ctor_call_sequence (drv : Driver) (portName : String) (mem : DAQMX)
    (log : List Event) :
    (DAQMX.ctor drv portName mem log).2
      = (if DAQmxFailed (ctorStatus1 drv log) then
          log ++ (ctorEvents drv portName mem log).take 1
            ++ errorReport drv (log ++ (ctorEvents drv portName mem log).take 1)
        else if DAQmxFailed (ctorStatus2 drv portName log) then
          log ++ (ctorEvents drv portName mem log).take 2
            ++ errorReport drv (log ++ (ctorEvents drv portName mem log).take 2)
        else if DAQmxFailed (ctorStatus3 drv portName log) then
          log ++ (ctorEvents drv portName mem log).take 3
            ++ errorReport drv (log ++ (ctorEvents drv portName mem log).take 3)
        else if DAQmxFailed (ctorStatus4 drv portName mem log) then
          log ++ (ctorEvents drv portName mem log).take 4
            ++ errorReport drv (log ++ (ctorEvents drv portName mem log).take 4)
        else if DAQmxFailed (ctorStatus5 drv portName mem log) then
          log ++ ctorEvents drv portName mem log
            ++ errorReport drv (log ++ ctorEvents drv portName mem log)
        else log ++ ctorEvents drv portName mem log) ∧
    (DAQMX.ctor drv portName mem log).1.error
      = (if DAQmxFailed (ctorStatus1 drv log) then ctorStatus1 drv log
        else if DAQmxFailed (ctorStatus2 drv portName log) then ctorStatus2 drv portName log
        else if DAQmxFailed (ctorStatus3 drv portName log) then ctorStatus3 drv portName log
        else if DAQmxFailed (ctorStatus4 drv portName mem log) then
          ctorStatus4 drv portName mem log
        else ctorStatus5 drv portName mem log) ∧
    taskCalls (ctorEvents drv portName mem log)
      = ctorCalls (drv.newTask log) portName (readBuffer (mem.createPWM ctorDC).DAQdata) ∧
    (ctorCalls (drv.newTask log) portName (readBuffer (mem.createPWM ctorDC).DAQdata)).Nodup ∧
    (∀ l, driverCalls (errorReport drv l) = [DriverCall.getExtendedErrorInfo 2048] ∧
      taskCalls (errorReport drv l) = []) ∧
    (∀ st, Event.call (.startTask (drv.newTask log)) st
        ∈ (DAQMX.ctor drv portName mem log).2.drop log.length →
      DAQmxFailed (ctorStatus4 drv portName mem log) = false ∧
      Event.call (ctorWrite drv mem log) (ctorStatus4 drv portName mem log)
        ∈ (DAQMX.ctor drv portName mem log).2.drop log.length) := by
  obtain ⟨e1, e2, e3, e4, e5⟩ := ctorLog_events drv portName mem log
  have hlog : (DAQMX.ctor drv portName mem log).2
      = (if DAQmxFailed (ctorStatus1 drv log) then
          log ++ (ctorEvents drv portName mem log).take 1
            ++ errorReport drv (log ++ (ctorEvents drv portName mem log).take 1)
        else if DAQmxFailed (ctorStatus2 drv portName log) then
          log ++ (ctorEvents drv portName mem log).take 2
            ++ errorReport drv (log ++ (ctorEvents drv portName mem log).take 2)
        else if DAQmxFailed (ctorStatus3 drv portName log) then
          log ++ (ctorEvents drv portName mem log).take 3
            ++ errorReport drv (log ++ (ctorEvents drv portName mem log).take 3)
        else if DAQmxFailed (ctorStatus4 drv portName mem log) then
          log ++ (ctorEvents drv portName mem log).take 4
            ++ errorReport drv (log ++ (ctorEvents drv portName mem log).take 4)
        else if DAQmxFailed (ctorStatus5 drv portName mem log) then
          log ++ ctorEvents drv portName mem log
            ++ errorReport drv (log ++ ctorEvents drv portName mem log)
        else log ++ ctorEvents drv portName mem log) := by
    rw [ctor_paths, ← e1, ← e2, ← e3, ← e4, ← e5]
    split_ifs with h1 h2 h3 h4 h5 <;> simp_all [atError_snd]
  refine ⟨hlog, ?_, ?_, ?_, fun l => ⟨rfl, ?_⟩, ?_⟩
  rotate_left 4
  · intro st
    rw [hlog]
    split_ifs with h1 h2 h3 h4 h5 <;>
      simp [List.append_assoc, List.drop_left, ctorEvents, errorReport, ctorWrite, *]
  · rw [ctor_paths]
    split_ifs with h1 h2 h3 h4 h5 <;> simp [atError_fst]
  · simp [taskCalls, taskEvents, ctorEvents, ctorWrite, DriverCall.isTaskCall, ctorCalls]
  · simp [ctorCalls]
  · unfold taskCalls
    rw [taskEvents_errorReport]
    rfl

/-- C19: when the first three calls of the constructor succeed, the next call
writes the encoding of the initial duty cycles, which are `Nsamp/2 = 128` on
all eight channels: samples 0..127 are `0xFF` and samples 128..255 are
`0x00`. -/
theorem ctor_initial_buffer (drv : Driver) (portName : String) (mem : DAQMX)
    (log : List Event)
    (h1 : DAQmxFailed (drv.status log .createTask) = false)
    (h2 : DAQmxFailed (drv.status (ctorLog1 drv log)
      (.createDOChan (drv.newTask log) portName)) = false)
    (h3 : DAQmxFailed (drv.status (ctorLog2 drv portName log)
      (.cfgSampClkTiming (drv.newTask log) Fclk Nsamp)) = false) :
    (∀ j, (ctorDC j).val = Nsamp / 2 ∧ (ctorDC j).val = 128) ∧
    (mem.createPWM ctorDC).DAQdata = (fun i => if i.val < 128 then 0xFF else 0x00) ∧
    ∃ st rest, (DAQMX.ctor drv portName mem log).2
      = ctorLog3 drv portName log
        ++ Event.call (.writeDigitalU8 (drv.newTask log) Nsamp false 10
            (readBuffer (fun i => if i.val < 128 then 0xFF else 0x00))) st :: rest := by
  refine ⟨fun j => ⟨rfl, rfl⟩, ?_, ?_⟩
  · rw [createPWM_eq, ctorDC_eq, sample_half]
  · rw [← sample_half]
    exact ctor_log_after_three drv portName mem log h1 h2 h3

/-- C19 (witness): the constructor on a driver that accepts every call. -/
theorem ctor_initial_buffer_witness :
    DAQmxFailed (okDriver.status [] .createTask) = false ∧
    DAQmxFailed (okDriver.status (ctorLog1 okDriver [])
      (.createDOChan (okDriver.newTask []) shellPort)) = false ∧
    DAQmxFailed (okDriver.status (ctorLog2 okDriver shellPort [])
      (.cfgSampClkTiming (okDriver.newTask []) Fclk Nsamp)) = false ∧
    ((∀ j, (ctorDC j).val = Nsamp / 2 ∧ (ctorDC j).val = 128) ∧
    (zeroMem.createPWM ctorDC).DAQdata = (fun i => if i.val < 128 then 0xFF else 0x00) ∧
    ∃ st rest, (DAQMX.ctor okDriver shellPort zeroMem []).2
      = ctorLog3 okDriver shellPort []
        ++ Event.call (.writeDigitalU8 (okDriver.newTask []) Nsamp false 10
            (readBuffer (fun i => if i.val < 128 then 0xFF else 0x00))) st :: rest) :=
  ⟨rfl, rfl, rfl, ctor_initial_buffer okDriver shellPort zeroMem [] rfl rfl rfl⟩

theorem checkBuffer_val (b : Fin Nsamp) : checkBuffer (b.val : Int) = .ok b := by
  unfold checkBuffer
  have h : 0 ≤ (b.val : Int) ∧ (b.val : Int).toNat < Nsamp :=
    ⟨Int.ofNat_nonneg _, by simp⟩
  rw [dif_pos h]
  congr 1

theorem checkDC_val (c : Fin 8) : checkDC (c.val : Int) = .ok c := by
  unfold checkDC
  have h : 0 ≤ (c.val : Int) ∧ (c.val : Int).toNat < 8 := ⟨Int.ofNat_nonneg _, by simp⟩
  rw [dif_pos h]
  congr 1

theorem innerChecked_step (dc : DutyCycle) (b : Fin Nsamp) (c : Fin 8) (j : Int)
    (hj : j = (c.val : Int)) (fuel : Nat) (d : Buffer) :
    createPWM.innerChecked dc (b.val : Int) (fuel + 1) j d
      = createPWM.innerChecked dc (b.val : Int) fuel (j - 1) (createPWM.step dc b d c) := by
  subst hj
  rw [createPWM.innerChecked, if_pos (Int.ofNat_nonneg _), checkBuffer_val, checkDC_val]

theorem innerChecked_exit (dc : DutyCycle) (i : Int) (fuel : Nat) (d : Buffer) :
    createPWM.innerChecked dc i (fuel + 1) (-1) d = .ok d := by
  rw [createPWM.innerChecked, if_neg (by decide)]

theorem innerChecked_run (dc : DutyCycle) (b : Fin Nsamp) (fuel : Nat) (d : Buffer) :
    createPWM.innerChecked dc (b.val : Int) (fuel + 9) 7 (Function.update d b 0)
      = .ok (createPWM.body dc d b) := by
  rw [innerChecked_step dc b 7 7 rfl (fuel + 8), show ((7 : Int) - 1) = 6 from rfl,
    innerChecked_step dc b 6 6 rfl (fuel + 7), show ((6 : Int) - 1) = 5 from rfl,
    innerChecked_step dc b 5 5 rfl (fuel + 6), show ((5 : Int) - 1) = 4 from rfl,
    innerChecked_step dc b 4 4 rfl (fuel + 5), show ((4 : Int) - 1) = 3 from rfl,
    innerChecked_step dc b 3 3 rfl (fuel + 4), show ((3 : Int) - 1) = 2 from rfl,
    innerChecked_step dc b 2 2 rfl (fuel + 3), show ((2 : Int) - 1) = 1 from rfl,
    innerChecked_step dc b 1 1 rfl (fuel + 2), show ((1 : Int) - 1) = 0 from rfl,
    innerChecked_step dc b 0 0 rfl (fuel + 1), show ((0 : Int) - 1) = -1 from rfl,
    innerChecked_exit]
  rfl

theorem outerChecked_run (dc : DutyCycle) (fi : Nat) (n : Nat) :
    ∀ (i : Nat) (fuel : Nat) (d : Buffer) (seen : List Int), i + n = Nsamp →
      ∃ d1, createPWM.outerChecked dc (fi + 9) (fuel + n + 1) (i : Int) d seen
          = .ok (d1, seen ++ (List.range' i n).map Int.ofNat) ∧
        ∀ k : Fin Nsamp, d1 k = if i ≤ k.val then sample dc k else d k := by
  induction n with
  | zero =>
    intro i fuel d seen hi
    refine ⟨d, ?_, fun k => ?_⟩
    · rw [createPWM.outerChecked, if_neg (by omega)]
      simp
    · have hk := k.isLt
      rw [if_neg (by omega)]
  | succ n ih =>
    intro i fuel d seen hi
    have hlt : i < Nsamp := by omega
    obtain ⟨d1, hrun, hd1⟩ := ih (i + 1) fuel (createPWM.body dc d ⟨i, hlt⟩) (seen ++ [(i : Int)])
      (by omega)
    refine ⟨d1, ?_, fun k => ?_⟩
    · rw [show fuel + (n + 1) + 1 = (fuel + n + 1) + 1 from by omega, createPWM.outerChecked,
        if_pos (by exact_mod_cast hlt)]
      have hb := checkBuffer_val ⟨i, hlt⟩
      simp only at hb
      rw [hb]
      simp only
      have hin := innerChecked_run dc ⟨i, hlt⟩ fi d
      simp only at hin
      rw [hin]
      simp only
      have hcast : ((i : Int) + 1) = ((i + 1 : Nat) : Int) := by push_cast; rfl
      rw [hcast, hrun]
      simp [List.range'_succ]
    · rw [hd1 k, body_eq]
      by_cases h1 : i + 1 ≤ k.val
      · have hne : k ≠ ⟨i, hlt⟩ := by
          intro h
          rw [h] at h1
          simp at h1
        rw [if_pos h1, if_pos (by omega)]
      · rw [if_neg h1]
        by_cases h2 : i ≤ k.val
        · have heq : k = ⟨i, hlt⟩ := by
            apply Fin.ext
            simp
            omega
          rw [if_pos h2, heq, Function.update_same]
        · have hne : k ≠ ⟨i, hlt⟩ := by
            intro h
            rw [h] at h2
            simp at h2
          rw [if_neg h2, Function.update_noteq hne]

/-- C13: `createPWM` is total: for every duty-cycle vector and every previous
buffer, the run with checked accesses ends without a fault as soon as the
budgets cover the 257 tests of the outer loop and the 9 tests of the inner
loop; no index leaves `DAQdata[0..255]` or `dc[0..7]`, the sample indices
visited are 0, 1, ..., 255, each once, and the buffer is the one `createPWM`
leaves. -/
theorem createPWM_total (s : DAQMX) (dc : DutyCycle) (outerFuel innerFuel : Nat)
    (ho : 257 ≤ outerFuel) (hi : 9 ≤ innerFuel) :
    createPWM.checked dc outerFuel innerFuel s.DAQdata
      = .ok ((s.createPWM dc).DAQdata, (List.range 256).map Int.ofNat) := by
  obtain ⟨fo, rfl⟩ : ∃ fo, outerFuel = fo + 256 + 1 := ⟨outerFuel - 257, by omega⟩
  obtain ⟨fi, rfl⟩ : ∃ fi, innerFuel = fi + 9 := ⟨innerFuel - 9, by omega⟩
  obtain ⟨d1, hrun, hd1⟩ := outerChecked_run dc fi 256 0 fo s.DAQdata [] rfl
  have hd : d1 = (s.createPWM dc).DAQdata := by
    funext k
    rw [hd1 k, if_pos (Nat.zero_le _), createPWM_data]
  unfold createPWM.checked
  rw [show ((0 : Nat) : Int) = 0 from rfl] at hrun
  rw [hrun, hd, List.nil_append, List.range_eq_range']

/-- C13 (witness): the run at 50% duty with exactly the budgets 257 and 9. -/
theorem createPWM_total_witness :
    257 ≤ 257 ∧ 9 ≤ 9 ∧
    createPWM.checked (constDC 128) 257 9 zeroMem.DAQdata
      = .ok ((zeroMem.createPWM (constDC 128)).DAQdata, (List.range 256).map Int.ofNat) :=
  ⟨le_refl _, le_refl _, createPWM_total zeroMem (constDC 128) 257 9 (le_refl _) (le_refl _)⟩

/-! ## Frames, zones and intensities -/

theorem taskCalls_append (a b : List Event) : taskCalls (a ++ b) = taskCalls a ++ taskCalls b := by
  unfold taskCalls
  rw [taskEvents_append, List.map_append]

theorem writePWM_log (drv : Driver) (s : DAQMX) (dc : DutyCycle) (log : List Event) :
    ∃ new, (DAQMX.writePWM drv s dc log).2 = log ++ new ∧
      taskCalls new = [DriverCall.writeDigitalU8 s.taskHandle Nsamp false 10
        (readBuffer (sample dc))] ∧
      (DAQMX.writePWM drv s dc log).1.taskHandle = s.taskHandle := by
  rw [writePWM_eq]
  refine ⟨_, rfl, ?_, rfl⟩
  unfold taskCalls
  split <;> simp [taskEvents, DriverCall.isTaskCall, errorReport]

theorem drawLeapFrame_log (fp : Rounding) (drv : Driver) (frame : Frame) :
    ∀ (SP : DAQMX) (log : List Event),
      ∃ new, (OpenGLDemo.drawLeapFrame fp drv frame SP log).2 = log ++ new ∧
        taskCalls new = frame.map (fun hand =>
          DriverCall.writeDigitalU8 SP.taskHandle Nsamp false 10
            (readBuffer (sample (drawLeapFrame.handDC fp hand)))) ∧
        (OpenGLDemo.drawLeapFrame fp drv frame SP log).1.taskHandle = SP.taskHandle := by
  induction frame with
  | nil =>
    intro SP log
    exact ⟨[], by simp [OpenGLDemo.drawLeapFrame], rfl, rfl⟩
  | cons hand rest ih =>
    intro SP log
    obtain ⟨new1, h1, hc1, ht1⟩ := writePWM_log drv SP (drawLeapFrame.handDC fp hand) log
    obtain ⟨new2, h2, hc2, ht2⟩ := ih (DAQMX.writePWM drv SP (drawLeapFrame.handDC fp hand) log).1
      (DAQMX.writePWM drv SP (drawLeapFrame.handDC fp hand) log).2
    have hstep : OpenGLDemo.drawLeapFrame fp drv (hand :: rest) SP log
        = OpenGLDemo.drawLeapFrame fp drv rest
            (DAQMX.writePWM drv SP (drawLeapFrame.handDC fp hand) log).1
            (DAQMX.writePWM drv SP (drawLeapFrame.handDC fp hand) log).2 := rfl
    rw [hstep]
    refine ⟨new1 ++ new2, ?_, ?_, ?_⟩
    · rw [h2, h1, List.append_assoc]
    · rw [taskCalls_append, hc1, hc2, ht1]
      rfl
    · rw [ht2, ht1]

theorem pointable_other (fp : Rounding) (dc : DutyCycle) (p : Pointable) (j : Fin 8)
    (h0 : j ≠ 0) (h2 : j ≠ 2) (h3 : j ≠ 3) (h4 : j ≠ 4) :
    drawLeapFrame.pointable fp dc p j = dc j := by
  unfold drawLeapFrame.pointable
  split_ifs <;> simp [Function.update_noteq, h0, h2, h3, h4]

theorem foldl_pointable_other (fp : Rounding) (hand : Hand) (j : Fin 8)
    (h0 : j ≠ 0) (h2 : j ≠ 2) (h3 : j ≠ 3) (h4 : j ≠ 4) :
    ∀ dc : DutyCycle, hand.foldl (drawLeapFrame.pointable fp) dc j = dc j := by
  induction hand with
  | nil => intro dc; rfl
  | cons p rest ih =>
    intro dc
    rw [List.foldl_cons, ih, pointable_other fp dc p j h0 h2 h3 h4]

theorem pointable_rejected (fp : Rounding) (dc : DutyCycle) (p : Pointable)
    (h : nearPlane fp p = false ∨
      (inUp fp p = false ∧ inDown fp p = false ∧ inRight fp p = false ∧ inLeft fp p = false)) :
    drawLeapFrame.pointable fp dc p = dc := by
  unfold drawLeapFrame.pointable
  rcases h with h | ⟨hu, hd, hr, hl⟩
  · simp [h]
  · simp [hu, hd, hr, hl]

theorem handDC_rejected (fp : Rounding) (hand : Hand)
    (h : ∀ p ∈ hand, nearPlane fp p = false ∨
      (inUp fp p = false ∧ inDown fp p = false ∧ inRight fp p = false ∧ inLeft fp p = false)) :
    drawLeapFrame.handDC fp hand = fun _ => 0 := by
  unfold drawLeapFrame.handDC
  generalize (fun _ => 0 : DutyCycle) = dc
  induction hand generalizing dc with
  | nil => rfl
  | cons p rest ih =>
    rw [List.foldl_cons, pointable_rejected fp dc p (h p (List.mem_cons_self p rest))]
    exact ih (fun q hq => h q (List.mem_cons_of_mem p hq)) dc

theorem level_zero (dc : DutyCycle) (i : Fin Nsamp) (j : Fin 8) (h : dc j = 0) :
    level dc i j = false := by
  unfold level
  rw [h]
  simp

theorem exactFP_faithful : exactFP.Faithful :=
  ⟨fun _ _ h => h, fun _ _ h => h, fun _ _ => rfl, fun _ _ => rfl⟩

theorem faithful_double (fp : Rounding) (hfp : fp.Faithful) (k : Int) (hk : |k| ≤ 2 ^ 20)
    (q : ℚ) (hq : q = (k : ℚ) / 16) : fp.toDouble q = q := by
  subst hq
  exact hfp.2.2.2 k hk

theorem faithful_float (fp : Rounding) (hfp : fp.Faithful) (k : Int) (hk : |k| ≤ 2 ^ 20)
    (q : ℚ) (hq : q = (k : ℚ) / 16) : fp.toFloat q = q := by
  subst hq
  exact hfp.2.2.1 k hk

theorem truncate_bounds (q : ℚ) (lo hi : Int) (hlo : (lo : ℚ) ≤ q) (hhi : q ≤ (hi : ℚ))
    (h0 : 0 ≤ lo) : lo ≤ truncate q ∧ truncate q ≤ hi := by
  have hq : (0 : ℚ) ≤ q := le_trans (by exact_mod_cast h0) hlo
  unfold truncate
  rw [if_pos hq]
  exact ⟨Int.le_floor.mpr hlo, Int.floor_le_iff.mpr (lt_of_le_of_lt hhi (by linarith))⟩

theorem intensity_bounds (fp : Rounding) (hfp : fp.Faithful) (c : ℚ)
    (h1 : -(1 / 2) ≤ c) (h2 : c ≤ 1 / 2) :
    127 ≤ intensity fp c ∧ intensity fp c ≤ 255 := by
  have e34 : fp.toDouble (3 / 4) = 3 / 4 := faithful_double fp hfp 12 (by decide) (3 / 4) (by norm_num)
  have a1 : -(1 / 4) ≤ fp.toFloat (c / 2) := by
    have := hfp.1 (show -(1 / 4 : ℚ) ≤ c / 2 by linarith)
    rwa [faithful_float fp hfp (-4) (by decide) (-(1 / 4)) (by norm_num)] at this
  have a2 : fp.toFloat (c / 2) ≤ 1 / 4 := by
    have := hfp.1 (show c / 2 ≤ (1 / 4 : ℚ) by linarith)
    rwa [faithful_float fp hfp 4 (by decide) (1 / 4) (by norm_num)] at this
  have b1 : 1 / 2 ≤ fp.toDouble (fp.toFloat (c / 2) + 3 / 4) := by
    have := hfp.2.1 (show (1 / 2 : ℚ) ≤ fp.toFloat (c / 2) + 3 / 4 by linarith)
    rwa [faithful_double fp hfp 8 (by decide) (1 / 2) (by norm_num)] at this
  have b2 : fp.toDouble (fp.toFloat (c / 2) + 3 / 4) ≤ 1 := by
    have := hfp.2.1 (show fp.toFloat (c / 2) + 3 / 4 ≤ (1 : ℚ) by linarith)
    rwa [faithful_double fp hfp 16 (by decide) 1 (by norm_num)] at this
  have m1 : 255 / 2 ≤ fp.toDouble (255 * fp.toDouble (fp.toFloat (c / 2) + 3 / 4)) := by
    have := hfp.2.1
      (show (255 / 2 : ℚ) ≤ 255 * fp.toDouble (fp.toFloat (c / 2) + 3 / 4) by linarith)
    rwa [faithful_double fp hfp 2040 (by decide) (255 / 2) (by norm_num)] at this
  have m2 : fp.toDouble (255 * fp.toDouble (fp.toFloat (c / 2) + 3 / 4)) ≤ 255 := by
    have := hfp.2.1
      (show 255 * fp.toDouble (fp.toFloat (c / 2) + 3 / 4) ≤ (255 : ℚ) by linarith)
    rwa [faithful_double fp hfp 4080 (by decide) 255 (by norm_num)] at this
  unfold intensity
  rw [e34]
  exact truncate_bounds _ 127 255 (by push_cast; linarith) (by push_cast; linarith) (by decide)

theorem countHigh_createPWM (s : DAQMX) (dc : DutyCycle) (j : Fin 8) :
    countHigh (s.createPWM dc).DAQdata j = (dc j).val := by
  unfold countHigh
  simp only [data_testBit, decide_eq_true_eq]
  exact card_val_lt _ (dc j).isLt

theorem sample_last (dc : DutyCycle) : sample dc 255 = 0 := by
  have h : ∀ j, level dc 255 j = false := by
    intro j
    unfold level
    have := (dc j).isLt
    simp only [decide_eq_false_iff_not, not_lt]
    exact Nat.le_of_lt_succ this
  unfold sample
  simp only [h]
  rfl

/-- C21 (counterexample): the sensor callback with a frame of one hand logs no
driver call, and the render callback that follows logs the write. -/
theorem onFrame_silent_render_writes :
    (OpenGLDemo.onFrame [[]] idleShell []).2 = [] ∧
    taskCalls (OpenGLDemo.renderOpenGL exactFP okDriver
        (OpenGLDemo.onFrame [[]] idleShell []).1 []).2
      = [DriverCall.writeDigitalU8 1 256 false 10 (List.replicate 256 0)] := by
  refine ⟨rfl, ?_⟩
  obtain ⟨new, h, hc, -⟩ := drawLeapFrame_log exactFP okDriver [[]] streamingDev []
  have hr : (OpenGLDemo.renderOpenGL exactFP okDriver
      (OpenGLDemo.onFrame [[]] idleShell []).1 []).2
      = (OpenGLDemo.drawLeapFrame exactFP okDriver [[]] streamingDev []).2 := rfl
  rw [hr, h, List.nil_append, hc]
  have hz : drawLeapFrame.handDC exactFP [] = fun _ => 0 := rfl
  simp only [List.map_cons, List.map_nil, hz, readBuffer_zero]
  rfl

/-- C21 (amended): device updates are issued from the rendering path and not
from the sensor callback: `onFrame` only stores the frame and asks for a
repaint, with no driver call and the device untouched, and each run of the
render callback (`renderOpenGL`, through `drawLeapFrame`) computes one
duty-cycle vector for each hand of the stored frame and calls `writePWM`
with it, one write for each hand in order. -/
theorem updates_from_render_path (fp : Rounding) (drv : Driver) (frame : Frame) (sh : Shell)
    (log : List Event) :
    (OpenGLDemo.onFrame frame sh log).2 = log ∧
    (OpenGLDemo.onFrame frame sh log).1.SP = sh.SP ∧
    (OpenGLDemo.onFrame frame sh log).1.m_lastFrame = frame ∧
    (OpenGLDemo.onFrame frame sh log).1.repaint = true ∧
    ∃ new, (OpenGLDemo.renderOpenGL fp drv sh log).2 = log ++ new ∧
      taskCalls new = sh.m_lastFrame.map (fun hand =>
        DriverCall.writeDigitalU8 sh.SP.taskHandle Nsamp false 10
          (readBuffer (sh.SP.createPWM (drawLeapFrame.handDC fp hand)).DAQdata)) := by
  refine ⟨rfl, rfl, rfl, rfl, ?_⟩
  obtain ⟨new, h, hc, -⟩ := drawLeapFrame_log fp drv sh.m_lastFrame sh.SP log
  refine ⟨new, h, ?_⟩
  simp only [createPWM_eq]
  exact hc

/-- C22 (counterexample): the write issued by `writePWM` carries the time-out
argument 10, which is not `DAQmx_Val_WaitInfinitely`. -/
theorem writePWM_timeout_finite :
    (taskCalls (DAQMX.writePWM okDriver streamingDev (constDC 128) []).2).map
        DriverCall.timeoutArg = [some 10] ∧
    (10 : Int) ≠ DAQmx_Val_WaitInfinitely := by
  obtain ⟨new, h, hc, -⟩ := writePWM_log okDriver streamingDev (constDC 128) []
  rw [h, List.nil_append, hc]
  exact ⟨rfl, by decide⟩

/-- C22 (amended): a time-out of 10 seconds is imposed on the hardware write
path: the driver write issued by `writePWM`, and the initial write of the
constructor (its fourth call) when it is reached, are requested with the
time-out argument 10.0, not with `DAQmx_Val_WaitInfinitely`; no other call
of the constructor takes a time-out. -/
theorem write_timeout_ten (drv : Driver) (s : DAQMX) (dc : DutyCycle) (portName : String)
    (mem : DAQMX) (log : List Event) :
    (∃ new, (DAQMX.writePWM drv s dc log).2 = log ++ new ∧
      (taskCalls new).map DriverCall.timeoutArg = [some 10]) ∧
    (∃ new, (DAQMX.ctor drv portName mem log).2 = log ++ new ∧
      (taskCalls new).map DriverCall.timeoutArg <+: [none, none, none, some 10, none]) ∧
    (10 : Int) ≠ DAQmx_Val_WaitInfinitely ∧ (0 : Int) ≤ 10 := by
  refine ⟨?_, ?_, by decide, by decide⟩
  · obtain ⟨new, h, hc, -⟩ := writePWM_log drv s dc log
    exact ⟨new, h, by rw [hc]; rfl⟩
  · obtain ⟨r1, r2, r3, r4, r5, rep, hrep, hc⟩ := ctor_cases drv portName mem log
    rcases hc with ⟨h1, heq⟩ | ⟨h1, h2, heq⟩ | ⟨h1, h2, h3, heq⟩ | ⟨h1, h2, h3, h4, heq⟩ |
      ⟨h1, h2, h3, h4, h5, heq⟩ | ⟨h1, h2, h3, h4, h5, heq⟩
    all_goals
      rw [heq]
      refine ⟨_, rfl, ?_⟩
      simp [taskCalls, taskEvents_append, taskEvents, DriverCall.isTaskCall, hrep,
        DriverCall.timeoutArg]

theorem faithful_zone_bounds (fp : Rounding) (hfp : fp.Faithful) :
    0 ≤ fp.toDouble (1 / 10) ∧ 1 / 4 ≤ fp.toDouble (2 / 5) ∧ fp.toDouble (2 / 5) ≤ 1 / 2 ∧
    9 / 16 ≤ fp.toDouble (3 / 5) ∧ fp.toDouble (1 / 2) = 1 / 2 := by
  refine ⟨?_, ?_, ?_, ?_, faithful_double fp hfp 8 (by decide) (1 / 2) (by norm_num)⟩
  · have := hfp.2.1 (show (0 : ℚ) ≤ 1 / 10 by norm_num)
    rwa [faithful_double fp hfp 0 (by decide) 0 (by norm_num)] at this
  · have := hfp.2.1 (show (1 / 4 : ℚ) ≤ 2 / 5 by norm_num)
    rwa [faithful_double fp hfp 4 (by decide) (1 / 4) (by norm_num)] at this
  · have := hfp.2.1 (show (2 / 5 : ℚ) ≤ 1 / 2 by norm_num)
    rwa [faithful_double fp hfp 8 (by decide) (1 / 2) (by norm_num)] at this
  · have := hfp.2.1 (show (9 / 16 : ℚ) ≤ 3 / 5 by norm_num)
    rwa [faithful_double fp hfp 9 (by decide) (9 / 16) (by norm_num)] at this

theorem intensity_neg_half (fp : Rounding) (hfp : fp.Faithful) :
    intensity fp (-1 / 2) = 127 := by
  unfold intensity
  rw [show (-1 / 2 : ℚ) / 2 = -(1 / 4) by norm_num,
    faithful_float fp hfp (-4) (by decide) (-(1 / 4)) (by norm_num),
    faithful_double fp hfp 12 (by decide) (3 / 4) (by norm_num),
    show (-(1 / 4) + 3 / 4 : ℚ) = 1 / 2 by norm_num,
    faithful_double fp hfp 8 (by decide) (1 / 2) (by norm_num),
    show (255 * (1 / 2) : ℚ) = 255 / 2 by norm_num,
    faithful_double fp hfp 2040 (by decide) (255 / 2) (by norm_num)]
  unfold truncate
  rw [if_pos (by norm_num), Int.floor_eq_iff]
  constructor <;> norm_num

theorem tipUpLeft_tests (fp : Rounding) (hfp : fp.Faithful) :
    nearPlane fp tipUpLeft = true ∧ inUp fp tipUpLeft = true ∧ inDown fp tipUpLeft = false ∧
    inRight fp tipUpLeft = false ∧ inLeft fp tipUpLeft = false := by
  obtain ⟨h10, h25a, h25b, h35, h12⟩ := faithful_zone_bounds fp hfp
  unfold nearPlane inUp inDown inRight inLeft tipUpLeft
  simp only [h12]
  refine ⟨?_, ?_, ?_, ?_, ?_⟩
  · simpa using h10
  · simp only [Bool.and_eq_true, decide_eq_true_eq]
    refine ⟨⟨⟨?_, h35⟩, ?_⟩, ?_⟩
    · linarith
    · norm_num
    · norm_num
  · have hn : ¬ ((9 / 16 : ℚ) ≤ -fp.toDouble (2 / 5)) := by
      intro h
      linarith
    simp only [hn, decide_False, Bool.and_false, Bool.false_and]
  · have hn : ¬ ((9 / 16 : ℚ) ≤ 1 / 2) := by norm_num
    simp only [hn, decide_False, Bool.and_false, Bool.false_and]
  · have hn : ¬ ((9 / 16 : ℚ) ≤ 1 / 2) := by norm_num
    simp only [hn, decide_False, Bool.and_false, Bool.false_and]

theorem handDC_single (fp : Rounding) (p : Pointable) :
    drawLeapFrame.handDC fp [p] = drawLeapFrame.pointable fp (fun _ => 0) p := rfl

theorem toUInt8_256 : toUInt8 256 = 0 := by decide

theorem handDC_other_zero (fp : Rounding) (hand : Hand) (j : Fin 8)
    (h0 : j ≠ 0) (h2 : j ≠ 2) (h3 : j ≠ 3) (h4 : j ≠ 4) :
    drawLeapFrame.handDC fp hand j = 0 :=
  foldl_pointable_other fp hand j h0 h2 h3 h4 (fun _ => 0)

theorem testBit_zero_channel (s : DAQMX) (dc : DutyCycle) (i : Fin Nsamp) (j : Fin 8)
    (h : dc j = 0) : ((s.createPWM dc).DAQdata i).testBit j.val = false := by
  rw [data_testBit, h]
  simp

/-- C23: the intensity is not clamped into 0..255: the fingertip at
`x = -0.5`, `y = 0.5625` on the plane passes the proximity test and the test
of the upper zone, `val = int(255*(x/2+0.75))` is 127 there, and the value
`383 - val = 256` assigned to channel 2 lies outside 0..255; it is stored as
it is converted, without clamping, so the byte kept is not 255. -/
theorem intensity_not_clamped (fp : Rounding) (hfp : fp.Faithful) :
    nearPlane fp tipUpLeft = true ∧ inUp fp tipUpLeft = true ∧
    tipUpLeft.x = -1 / 2 ∧
    intensity fp tipUpLeft.x = 127 ∧ 383 - intensity fp tipUpLeft.x = 256 ∧
    ¬ (383 - intensity fp tipUpLeft.x ≤ 255) ∧
    drawLeapFrame.handDC fp [tipUpLeft] 0 = toUInt8 (intensity fp tipUpLeft.x) ∧
    drawLeapFrame.handDC fp [tipUpLeft] 2 = toUInt8 (383 - intensity fp tipUpLeft.x) ∧
    drawLeapFrame.handDC fp [tipUpLeft] 2 ≠ 255 := by
  obtain ⟨hn, hu, hd, hr, hl⟩ := tipUpLeft_tests fp hfp
  have hx : tipUpLeft.x = -1 / 2 := rfl
  have hv : intensity fp tipUpLeft.x = 127 := by rw [hx]; exact intensity_neg_half fp hfp
  have hdc : drawLeapFrame.handDC fp [tipUpLeft]
      = Function.update (Function.update (fun _ => 0 : DutyCycle) 0
          (toUInt8 (intensity fp tipUpLeft.x))) 2
          (toUInt8 (383 - intensity fp tipUpLeft.x)) := by
    rw [handDC_single]
    unfold drawLeapFrame.pointable
    simp only [hn, hu, hd, hr, hl, if_true, Bool.false_eq_true, if_false]
  refine ⟨hn, hu, hx, hv, by rw [hv]; rfl, by rw [hv]; decide, ?_, ?_, ?_⟩
  · rw [hdc, Function.update_noteq (by decide), Function.update_same]
  · rw [hdc, Function.update_same]
  · rw [hdc, Function.update_same, hv]
    decide

/-- C23 (witness): the statement for arithmetic without rounding error. -/
theorem intensity_not_clamped_witness :
    exactFP.Faithful ∧
    (nearPlane exactFP tipUpLeft = true ∧ inUp exactFP tipUpLeft = true ∧
    tipUpLeft.x = -1 / 2 ∧
    intensity exactFP tipUpLeft.x = 127 ∧ 383 - intensity exactFP tipUpLeft.x = 256 ∧
    ¬ (383 - intensity exactFP tipUpLeft.x ≤ 255) ∧
    drawLeapFrame.handDC exactFP [tipUpLeft] 0 = toUInt8 (intensity exactFP tipUpLeft.x) ∧
    drawLeapFrame.handDC exactFP [tipUpLeft] 2
      = toUInt8 (383 - intensity exactFP tipUpLeft.x) ∧
    drawLeapFrame.handDC exactFP [tipUpLeft] 2 ≠ 255) :=
  ⟨exactFP_faithful, intensity_not_clamped exactFP exactFP_faithful⟩

/-- C24: the vector `drawLeapFrame` passes to `writePWM` drives channels 0, 2,
3 and 4 only: for every hand its entries 1, 5, 6 and 7 are 0, so bits 1, 5,
6 and 7 are clear in every sample of the buffer built from it, and the
writes of `drawLeapFrame` are the buffers of these vectors, one for each
hand of the frame. -/
theorem handDC_unused_channels (fp : Rounding) (drv : Driver) (frame : Frame) (SP : DAQMX)
    (log : List Event) (hand : Hand) :
    (drawLeapFrame.handDC fp hand 1 = 0 ∧ drawLeapFrame.handDC fp hand 5 = 0 ∧
      drawLeapFrame.handDC fp hand 6 = 0 ∧ drawLeapFrame.handDC fp hand 7 = 0) ∧
    (∀ (s : DAQMX) (i : Fin Nsamp),
      ((s.createPWM (drawLeapFrame.handDC fp hand)).DAQdata i).testBit 1 = false ∧
      ((s.createPWM (drawLeapFrame.handDC fp hand)).DAQdata i).testBit 5 = false ∧
      ((s.createPWM (drawLeapFrame.handDC fp hand)).DAQdata i).testBit 6 = false ∧
      ((s.createPWM (drawLeapFrame.handDC fp hand)).DAQdata i).testBit 7 = false) ∧
    ∃ new, (OpenGLDemo.drawLeapFrame fp drv frame SP log).2 = log ++ new ∧
      taskCalls new = frame.map (fun hand =>
        DriverCall.writeDigitalU8 SP.taskHandle Nsamp false 10
          (readBuffer (SP.createPWM (drawLeapFrame.handDC fp hand)).DAQdata)) := by
  have h1 := handDC_other_zero fp hand 1 (by decide) (by decide) (by decide) (by decide)
  have h5 := handDC_other_zero fp hand 5 (by decide) (by decide) (by decide) (by decide)
  have h6 := handDC_other_zero fp hand 6 (by decide) (by decide) (by decide) (by decide)
  have h7 := handDC_other_zero fp hand 7 (by decide) (by decide) (by decide) (by decide)
  refine ⟨⟨h1, h5, h6, h7⟩, fun s i => ⟨?_, ?_, ?_, ?_⟩, ?_⟩
  · exact testBit_zero_channel s _ i 1 h1
  · exact testBit_zero_channel s _ i 5 h5
  · exact testBit_zero_channel s _ i 6 h6
  · exact testBit_zero_channel s _ i 7 h7
  · obtain ⟨new, h, hc, -⟩ := drawLeapFrame_log fp drv frame SP log
    refine ⟨new, h, ?_⟩
    simp only [createPWM_eq]
    exact hc

/-- C25: for every duty-cycle vector the last sample (index 255) is `0x00`, as
no 8-bit duty value exceeds 255; so no channel is high for a whole cycle:
it is high in at most 255 of the 256 samples, a duty fraction of at most
255/256, which the duty value 255 reaches. -/
theorem createPWM_last_sample_low (s : DAQMX) (dc : DutyCycle) (j : Fin 8) :
    (s.createPWM dc).DAQdata 255 = 0x00 ∧
    ((s.createPWM dc).DAQdata 255).testBit j.val = false ∧
    countHigh (s.createPWM dc).DAQdata j ≤ 255 ∧
    (countHigh (s.createPWM dc).DAQdata j : ℚ) / Nsamp ≤ 255 / 256 ∧
    countHigh (s.createPWM (constDC 255)).DAQdata j = 255 := by
  have hc : countHigh (s.createPWM dc).DAQdata j ≤ 255 := by
    rw [countHigh_createPWM]
    exact Nat.le_of_lt_succ (dc j).isLt
  refine ⟨?_, ?_, hc, ?_, ?_⟩
  · rw [createPWM_data, sample_last]
  · rw [createPWM_data, sample_last]
    simp
  · have hq : (countHigh (s.createPWM dc).DAQdata j : ℚ) ≤ 255 := by exact_mod_cast hc
    have hN : ((Nsamp : Nat) : ℚ) = 256 := by norm_num
    rw [hN]
    linarith
  · rw [countHigh_createPWM]
    rfl

/-- C26: `createPWM` is injective: two duty-cycle vectors whose buffers are
equal sample for sample are equal, because counting the set samples of
bit-plane `j` gives back `dc[j]`. -/
theorem createPWM_injective (s1 s2 : DAQMX) (dc1 dc2 : DutyCycle)
    (h : (s1.createPWM dc1).DAQdata = (s2.createPWM dc2).DAQdata) :
    dc1 = dc2 ∧ ∀ j, countHigh (s1.createPWM dc1).DAQdata j = (dc1 j).val := by
  refine ⟨?_, fun j => countHigh_createPWM s1 dc1 j⟩
  funext j
  apply Fin.ext
  rw [← countHigh_createPWM s1 dc1 j, ← countHigh_createPWM s2 dc2 j, h]

/-- C26 (witness): the same vector encoded from two different objects. -/
theorem createPWM_injective_witness :
    (zeroMem.createPWM (constDC 128)).DAQdata = (streamingDev.createPWM (constDC 128)).DAQdata ∧
    (constDC 128 = constDC 128 ∧
      ∀ j, countHigh (zeroMem.createPWM (constDC 128)).DAQdata j = (constDC 128 j).val) :=
  ⟨by simp only [createPWM_eq],
   createPWM_injective zeroMem streamingDev (constDC 128) (constDC 128)
     (by simp only [createPWM_eq])⟩

theorem zone_coordinate_range (fp : Rounding) (hfp : fp.Faithful) (p : Pointable) :
    (inUp fp p = true ∨ inDown fp p = true → -(1 / 2) ≤ p.x ∧ p.x ≤ 1 / 2) ∧
    (inRight fp p = true ∨ inLeft fp p = true → -(1 / 2) ≤ p.y ∧ p.y ≤ 1 / 2) := by
  have h12 : fp.toDouble (1 / 2) = 1 / 2 :=
    faithful_double fp hfp 8 (by decide) (1 / 2) (by norm_num)
  unfold inUp inDown inRight inLeft
  simp only [h12, Bool.and_eq_true, decide_eq_true_eq, ge_iff_le]
  constructor
  · rintro (⟨⟨_, hx1⟩, hx2⟩ | ⟨⟨_, hx1⟩, hx2⟩) <;> exact ⟨hx1, hx2⟩
  · rintro (⟨⟨⟨hy1, hy2⟩, _⟩, _⟩ | ⟨⟨⟨hy1, hy2⟩, _⟩, _⟩) <;> exact ⟨hy1, hy2⟩

/-- C27: after `writePWM` the recorded error is the status of this call's own
driver write: the error recorded before plays no part in the outcome, and
the error report follows the write in the log exactly when that status is a
failure. -/
theorem writePWM_error_own_status (drv : Driver) (s : DAQMX) (dc : DutyCycle)
    (log : List Event) (e : Int) :
    (DAQMX.writePWM drv s dc log).1.error
      = drv.status log (.writeDigitalU8 s.taskHandle Nsamp false 10
          (readBuffer (s.createPWM dc).DAQdata)) ∧
    DAQMX.writePWM drv { s with error := e } dc log = DAQMX.writePWM drv s dc log ∧
    ∃ rep, (DAQMX.writePWM drv s dc log).2
        = log ++ Event.call (.writeDigitalU8 s.taskHandle Nsamp false 10
            (readBuffer (s.createPWM dc).DAQdata)) (DAQMX.writePWM drv s dc log).1.error :: rep ∧
      taskEvents rep = [] ∧
      (Event.printf ∈ rep ↔ DAQmxFailed (DAQMX.writePWM drv s dc log).1.error = true) ∧
      (rep = [] ↔ DAQmxFailed (DAQMX.writePWM drv s dc log).1.error = false) := by
  simp only [writePWM_eq, createPWM_eq]
  refine ⟨trivial, trivial, _, rfl, ?_, ?_, ?_⟩
  · split
    · exact taskEvents_errorReport _ _
    · rfl
  · split <;> simp_all [errorReport]
  · split <;> simp_all [errorReport]

theorem toUInt8_val (v : Int) : ((toUInt8 v).val : Int) = v % 256 := by
  have h : (toUInt8 v).val = (v % 256).toNat % 256 := rfl
  rw [h]
  omega

theorem pointable_near (fp : Rounding) (dc : DutyCycle) (p : Pointable)
    (hn : nearPlane fp p = true) :
    drawLeapFrame.pointable fp dc p =
      (let dc1 := if inUp fp p then
          Function.update (Function.update dc 0 (toUInt8 (intensity fp p.x))) 2
            (toUInt8 (383 - intensity fp p.x))
        else dc
      let dc2 := if inDown fp p then
          Function.update (Function.update dc1 3 (toUInt8 (383 - intensity fp p.x))) 4
            (toUInt8 (intensity fp p.x))
        else dc1
      let dc3 := if inRight fp p then
          Function.update (Function.update dc2 0 (toUInt8 (intensity fp p.y))) 4
            (toUInt8 (383 - intensity fp p.y))
        else dc2
      if inLeft fp p then
          Function.update (Function.update dc3 2 (toUInt8 (intensity fp p.y))) 3
            (toUInt8 (383 - intensity fp p.y))
        else dc3) := by
  unfold drawLeapFrame.pointable
  rw [if_pos hn]

theorem pointable_zone_values (fp : Rounding) (dc : DutyCycle) (p : Pointable)
    (hn : nearPlane fp p = true) :
    (inUp fp p = true →
      (inRight fp p = false →
        drawLeapFrame.pointable fp dc p 0 = toUInt8 (intensity fp p.x)) ∧
      (inLeft fp p = false →
        drawLeapFrame.pointable fp dc p 2 = toUInt8 (383 - intensity fp p.x))) ∧
    (inDown fp p = true →
      (inLeft fp p = false →
        drawLeapFrame.pointable fp dc p 3 = toUInt8 (383 - intensity fp p.x)) ∧
      (inRight fp p = false →
        drawLeapFrame.pointable fp dc p 4 = toUInt8 (intensity fp p.x))) ∧
    (inRight fp p = true →
      drawLeapFrame.pointable fp dc p 0 = toUInt8 (intensity fp p.y) ∧
      drawLeapFrame.pointable fp dc p 4 = toUInt8 (383 - intensity fp p.y)) ∧
    (inLeft fp p = true →
      drawLeapFrame.pointable fp dc p 2 = toUInt8 (intensity fp p.y) ∧
      drawLeapFrame.pointable fp dc p 3 = toUInt8 (383 - intensity fp p.y)) := by
  rw [pointable_near fp dc p hn]
  have n02 : (0 : Fin 8) ≠ 2 := by decide
  have n03 : (0 : Fin 8) ≠ 3 := by decide
  have n04 : (0 : Fin 8) ≠ 4 := by decide
  have n23 : (2 : Fin 8) ≠ 3 := by decide
  have n24 : (2 : Fin 8) ≠ 4 := by decide
  have n20 : (2 : Fin 8) ≠ 0 := by decide
  have n34 : (3 : Fin 8) ≠ 4 := by decide
  have n30 : (3 : Fin 8) ≠ 0 := by decide
  have n32 : (3 : Fin 8) ≠ 2 := by decide
  have n40 : (4 : Fin 8) ≠ 0 := by decide
  have n42 : (4 : Fin 8) ≠ 2 := by decide
  have n43 : (4 : Fin 8) ≠ 3 := by decide
  cases hu : inUp fp p <;> cases hd : inDown fp p <;> cases hr : inRight fp p <;>
    cases hl : inLeft fp p <;>
    simp [Function.update_noteq, n02, n03, n04, n23, n24, n20, n34, n30, n32, n40, n42, n43]

/-- C28: for every coordinate `c` with `-0.5 ≤ c ≤ 0.5`,
`val = int(255*(c/2+0.75))` lies in 127..255 and `383 - val` in 128..256,
and the two sum to 383. A pointable that passes the proximity test and a
zone test has the coordinate of that zone in this range (`x` for the upper
and lower zone, `y` for the right and left zone), and the two values the
code assigns to the pair of channels of the zone are `val` and `383 - val`
of that coordinate: they are what the channels hold after the pointable,
unless a later zone test of the same pointable assigned the channel again,
and for `val` above 127 the bytes kept are these values themselves. -/
theorem intensity_range (fp : Rounding) (hfp : fp.Faithful) (c : ℚ)
    (h1 : -(1 / 2) ≤ c) (h2 : c ≤ 1 / 2) (dc : DutyCycle) (p : Pointable)
    (hn : nearPlane fp p = true) :
    (127 ≤ intensity fp c ∧ intensity fp c ≤ 255 ∧
      128 ≤ 383 - intensity fp c ∧ 383 - intensity fp c ≤ 256 ∧
      intensity fp c + (383 - intensity fp c) = 383) ∧
    (inUp fp p = true →
      (-(1 / 2) ≤ p.x ∧ p.x ≤ 1 / 2) ∧
      (inRight fp p = false →
        drawLeapFrame.pointable fp dc p 0 = toUInt8 (intensity fp p.x)) ∧
      (inLeft fp p = false →
        drawLeapFrame.pointable fp dc p 2 = toUInt8 (383 - intensity fp p.x))) ∧
    (inDown fp p = true →
      (-(1 / 2) ≤ p.x ∧ p.x ≤ 1 / 2) ∧
      (inLeft fp p = false →
        drawLeapFrame.pointable fp dc p 3 = toUInt8 (383 - intensity fp p.x)) ∧
      (inRight fp p = false →
        drawLeapFrame.pointable fp dc p 4 = toUInt8 (intensity fp p.x))) ∧
    (inRight fp p = true →
      (-(1 / 2) ≤ p.y ∧ p.y ≤ 1 / 2) ∧
      drawLeapFrame.pointable fp dc p 0 = toUInt8 (intensity fp p.y) ∧
      drawLeapFrame.pointable fp dc p 4 = toUInt8 (383 - intensity fp p.y)) ∧
    (inLeft fp p = true →
      (-(1 / 2) ≤ p.y ∧ p.y ≤ 1 / 2) ∧
      drawLeapFrame.pointable fp dc p 2 = toUInt8 (intensity fp p.y) ∧
      drawLeapFrame.pointable fp dc p 3 = toUInt8 (383 - intensity fp p.y)) ∧
    (128 ≤ intensity fp c →
      ((toUInt8 (intensity fp c)).val : Int) = intensity fp c ∧
      ((toUInt8 (383 - intensity fp c)).val : Int) = 383 - intensity fp c) := by
  obtain ⟨hlo, hhi⟩ := intensity_bounds fp hfp c h1 h2
  obtain ⟨zu, zd, zr, zl⟩ := pointable_zone_values fp dc p hn
  obtain ⟨zx, zy⟩ := zone_coordinate_range fp hfp p
  refine ⟨⟨hlo, hhi, by omega, by omega, by omega⟩, ?_, ?_, ?_, ?_, ?_⟩
  · intro hu
    exact ⟨zx (Or.inl hu), zu hu⟩
  · intro hd
    exact ⟨zx (Or.inr hd), zd hd⟩
  · intro hr
    exact ⟨zy (Or.inl hr), zr hr⟩
  · intro hl
    exact ⟨zy (Or.inr hl), zl hl⟩
  · intro h128
    rw [toUInt8_val, toUInt8_val]
    omega

/-- C28 (witness): the statement at `c = 0` and at the fingertip in the upper
zone, for arithmetic without rounding error. -/
theorem intensity_range_witness :
    exactFP.Faithful ∧ -(1 / 2) ≤ (0 : ℚ) ∧ (0 : ℚ) ≤ 1 / 2 ∧
    nearPlane exactFP tipUpLeft = true ∧
    ((127 ≤ intensity exactFP 0 ∧ intensity exactFP 0 ≤ 255 ∧
      128 ≤ 383 - intensity exactFP 0 ∧ 383 - intensity exactFP 0 ≤ 256 ∧
      intensity exactFP 0 + (383 - intensity exactFP 0) = 383) ∧
    (inUp exactFP tipUpLeft = true →
      (-(1 / 2) ≤ tipUpLeft.x ∧ tipUpLeft.x ≤ 1 / 2) ∧
      (inRight exactFP tipUpLeft = false →
        drawLeapFrame.pointable exactFP (fun _ => 0) tipUpLeft 0
          = toUInt8 (intensity exactFP tipUpLeft.x)) ∧
      (inLeft exactFP tipUpLeft = false →
        drawLeapFrame.pointable exactFP (fun _ => 0) tipUpLeft 2
          = toUInt8 (383 - intensity exactFP tipUpLeft.x))) ∧
    (inDown exactFP tipUpLeft = true →
      (-(1 / 2) ≤ tipUpLeft.x ∧ tipUpLeft.x ≤ 1 / 2) ∧
      (inLeft exactFP tipUpLeft = false →
        drawLeapFrame.pointable exactFP (fun _ => 0) tipUpLeft 3
          = toUInt8 (383 - intensity exactFP tipUpLeft.x)) ∧
      (inRight exactFP tipUpLeft = false →
        drawLeapFrame.pointable exactFP (fun _ => 0) tipUpLeft 4
          = toUInt8 (intensity exactFP tipUpLeft.x))) ∧
    (inRight exactFP tipUpLeft = true →
      (-(1 / 2) ≤ tipUpLeft.y ∧ tipUpLeft.y ≤ 1 / 2) ∧
      drawLeapFrame.pointable exactFP (fun _ => 0) tipUpLeft 0
        = toUInt8 (intensity exactFP tipUpLeft.y) ∧
      drawLeapFrame.pointable exactFP (fun _ => 0) tipUpLeft 4
        = toUInt8 (383 - intensity exactFP tipUpLeft.y)) ∧
    (inLeft exactFP tipUpLeft = true →
      (-(1 / 2) ≤ tipUpLeft.y ∧ tipUpLeft.y ≤ 1 / 2) ∧
      drawLeapFrame.pointable exactFP (fun _ => 0) tipUpLeft 2
        = toUInt8 (intensity exactFP tipUpLeft.y) ∧
      drawLeapFrame.pointable exactFP (fun _ => 0) tipUpLeft 3
        = toUInt8 (383 - intensity exactFP tipUpLeft.y)) ∧
    (128 ≤ intensity exactFP 0 →
      ((toUInt8 (intensity exactFP 0)).val : Int) = intensity exactFP 0 ∧
      ((toUInt8 (383 - intensity exactFP 0)).val : Int) = 383 - intensity exactFP 0)) :=
  ⟨exactFP_faithful, by norm_num, by norm_num, (tipUpLeft_tests exactFP exactFP_faithful).1,
   intensity_range exactFP exactFP_faithful 0 (by norm_num) (by norm_num) (fun _ => 0)
     tipUpLeft (tipUpLeft_tests exactFP exactFP_faithful).1⟩

/-- C29: for a hand none of whose pointables passes the proximity test and a
zone test (a hand without pointables included), the vector passed to
`writePWM` is all zeros, whatever hands come before it in the frame, and the
buffer written for that hand is the all-zero buffer. -/
theorem handDC_zero_when_rejected (fp : Rounding) (drv : Driver) (before after : Frame)
    (hand : Hand) (SP : DAQMX) (log : List Event)
    (h : ∀ p ∈ hand, nearPlane fp p = false ∨
      (inUp fp p = false ∧ inDown fp p = false ∧ inRight fp p = false ∧ inLeft fp p = false)) :
    drawLeapFrame.handDC fp hand = (fun _ => 0) ∧
    readBuffer (SP.createPWM (drawLeapFrame.handDC fp hand)).DAQdata = List.replicate 256 0 ∧
    ∃ new, (OpenGLDemo.drawLeapFrame fp drv (before ++ hand :: after) SP log).2 = log ++ new ∧
      (taskCalls new)[before.length]?
        = some (DriverCall.writeDigitalU8 SP.taskHandle Nsamp false 10 (List.replicate 256 0)) := by
  have hz := handDC_rejected fp hand h
  refine ⟨hz, ?_, ?_⟩
  · rw [hz, createPWM_eq]
    exact readBuffer_zero
  · obtain ⟨new, hl, hc, -⟩ := drawLeapFrame_log fp drv (before ++ hand :: after) SP log
    refine ⟨new, hl, ?_⟩
    rw [hc, List.map_append, List.map_cons,
      List.getElem?_append_right (by rw [List.length_map]), List.length_map, Nat.sub_self,
      List.getElem?_cons_zero, hz, readBuffer_zero]

/-- C29 (witness): a hand whose only fingertip is far from the plane, after a
hand whose fingertip is in the upper zone. -/
theorem handDC_zero_when_rejected_witness :
    (∀ p ∈ [tipFar], nearPlane exactFP p = false ∨
      (inUp exactFP p = false ∧ inDown exactFP p = false ∧ inRight exactFP p = false ∧
        inLeft exactFP p = false)) ∧
    (drawLeapFrame.handDC exactFP [tipFar] = (fun _ => 0) ∧
    readBuffer (streamingDev.createPWM (drawLeapFrame.handDC exactFP [tipFar])).DAQdata
      = List.replicate 256 0 ∧
    ∃ new, (OpenGLDemo.drawLeapFrame exactFP okDriver ([[tipUpLeft]] ++ [tipFar] :: [])
        streamingDev []).2 = [] ++ new ∧
      (taskCalls new)[[[tipUpLeft]].length]?
        = some (DriverCall.writeDigitalU8 streamingDev.taskHandle Nsamp false 10
            (List.replicate 256 0))) :=
  ⟨by intro p hp; rw [List.mem_singleton] at hp; subst hp; exact Or.inl (by norm_num [nearPlane, exactFP, tipFar]),
   handDC_zero_when_rejected exactFP okDriver [[tipUpLeft]] [] [tipFar] streamingDev []
     (by intro p hp; rw [List.mem_singleton] at hp; subst hp; exact Or.inl (by norm_num [nearPlane, exactFP, tipFar]))⟩

end JuceLeapFw
